import Mathlib

/-!
Verification development for the agent orchestration engine of a
conversational property-search assistant (a ReAct-style agent with a
trace parser, a tool dispatcher and a conversation memory manager).

The TypeScript sources embedded here are:
  * the ReAct agent module (interfaces `ReActStep`, `ReActResponse`,
    `ToolResult`, class `ReActTools`, class `ReActAgent`), and
  * the memory manager module (`MemoryManager`), of which the repository
    holds two overlapping revisions (one with extended preference
    extraction patterns and a budget threshold, one without).

Modelling conventions:
  * JavaScript numbers are modelled as exact rationals (`Rat`); the
    concrete values handled here are exactly representable as doubles,
    so no rounding behaviour is lost.
  * External collaborators (web search, maps fetch, LLM text/object
    generation, `new Function` expression evaluation) are modelled as an
    explicit environment `Env` of outcome functions; a thrown exception
    is an `Except.error` carrying the error message.
  * Wall-clock execution timing (`Date.now()` deltas) is modelled as a
    single environment value `elapsed`; `Date` timestamps on steps and
    messages are omitted (real time is not part of any verified claim).
  * JavaScript string primitives used by the code (`trim`, `toLowerCase`,
    `startsWith`, `substring`, `includes`, `split`) are re-implemented on
    character lists (`js...` functions below) so that all definitions
    compute by kernel reduction.  JS whitespace is modelled as the ASCII
    set space/tab/newline/carriage-return, which covers every string the
    code and the verified inputs contain.
-/

/-! ## JavaScript string primitives -/

/-- Whitespace test used by the embeddings of JS `trim` and regex `\s`. -/
def isWsChar (c : Char) : Bool :=
  c == ' ' || c == '\t' || c == '\n' || c == '\r'

/-- Character-list version of the JS `String.prototype.trim`. -/
def trimChars (l : List Char) : List Char :=
  ((l.dropWhile isWsChar).reverse.dropWhile isWsChar).reverse

/-- Embedding of JS `s.trim()`. -/
def jsTrim (s : String) : String :=
  String.mk (trimChars s.data)

/-- Embedding of JS `s.toLowerCase()` (ASCII case mapping). -/
def jsToLower (s : String) : String :=
  String.mk (s.data.map Char.toLower)

/-- Decides whether the first list is a prefix of the second. -/
def listPre : List Char → List Char → Bool
  | [], _ => true
  | _ :: _, [] => false
  | a :: as, b :: bs => a == b && listPre as bs

/-- Decides whether `pat` occurs as a contiguous sublist of `l`. -/
def listHasSub (pat : List Char) : List Char → Bool
  | [] => listPre pat []
  | l@(_ :: rest) => listPre pat l || listHasSub pat rest

/-- Embedding of JS `s.includes(sub)`. -/
def jsIncludes (s sub : String) : Bool :=
  listHasSub sub.data s.data

/-- Embedding of JS `s.startsWith(p)`. -/
def jsStartsWith (s p : String) : Bool :=
  listPre p.data s.data

/-- Embedding of JS `s.substring(n)` (drop the first `n` characters). -/
def jsDrop (n : Nat) (s : String) : String :=
  String.mk (s.data.drop n)

/-- Splits a character list at newline characters, keeping empty pieces,
as JS `s.split('\n')` does. -/
def splitNl : List Char → List (List Char)
  | [] => [[]]
  | c :: rest =>
    if c == '\n' then [] :: splitNl rest
    else
      match splitNl rest with
      | head :: tail => (c :: head) :: tail
      | [] => [[c]]

/-- Embedding of `response.split('\n').filter(line => line.trim())`:
the lines of a completion, with blank lines removed. -/
def linesOf (s : String) : List String :=
  ((splitNl s.data).map String.mk).filter (fun l => !(jsTrim l).isEmpty)

/-- Drops leading regex-`\s` whitespace (greedy `\s*`). -/
def dropWs (l : List Char) : List Char :=
  l.dropWhile isWsChar

/-- Case-insensitive prefix test (ASCII), for `/i` regex literals. -/
def ciPre (pat : List Char) (l : List Char) : Bool :=
  listPre (pat.map Char.toLower) (l.map Char.toLower)

/-- Strips a case-insensitive literal from the front of `l`, returning
the remainder on success. -/
def ciStrip (pat : String) (l : List Char) : Option (List Char) :=
  if ciPre pat.data l then some (l.drop pat.data.length) else none

/-- Numeric value of a digit list (most significant first). -/
def digitsToNat (l : List Char) : Nat :=
  l.foldl (fun n c => n * 10 + (c.toNat - 48)) 0

/-- Embedding of JS `parseInt` applied to a digits-and-commas capture
after `replace(/,/g, '')`: `none` models `NaN` (no leading digit). -/
def parseIntOpt (l : List Char) : Option Nat :=
  let ds := l.takeWhile Char.isDigit
  if ds.isEmpty then none else some (digitsToNat ds)

/-! ### Numeric-literal scanning

The calculator and the property-query parser extract numeric literals
with the regex `\d+(?:,\d{3})*(?:\.\d+)?`.  `scanNumAt` consumes one
such literal greedily from the front of a character list (the greedy,
non-backtracking reading agrees with the JS engine on every input in
which the literal is not immediately followed by a partial match, which
holds for all inputs considered here). -/

/-- Consumes `(?:,\d{3})*` greedily: comma followed by exactly three
digits, repeated. -/
def scanCommaGroups : List Char → (List Char × List Char)
  | ',' :: a :: b :: c :: rest =>
    if a.isDigit && b.isDigit && c.isDigit then
      let (g, r) := scanCommaGroups rest
      (',' :: a :: b :: c :: g, r)
    else ([], ',' :: a :: b :: c :: rest)
  | l => ([], l)

/-- Consumes the optional `(?:\.\d+)?` decimal part greedily. -/
def scanDecPart : List Char → (List Char × List Char)
  | '.' :: c :: rest =>
    if c.isDigit then
      let ds := (c :: rest).takeWhile Char.isDigit
      ('.' :: ds, (c :: rest).dropWhile Char.isDigit)
    else ([], '.' :: c :: rest)
  | l => ([], l)

/-- Consumes one numeric literal `\d+(?:,\d{3})*(?:\.\d+)?` from the
front of the list, if it starts with a digit. -/
def scanNumAt (l : List Char) : Option (List Char × List Char) :=
  let ds := l.takeWhile Char.isDigit
  if ds.isEmpty then none
  else
    let r1 := l.dropWhile Char.isDigit
    let (g, r2) := scanCommaGroups r1
    let (d, r3) := scanDecPart r2
    some (ds ++ g ++ d, r3)

/-- Fuel-indexed scanner for `numLits`; each successful literal consumes
at least one character, so fuel equal to the list length suffices. -/
def numLitsFuel : Nat → List Char → List (List Char)
  | 0, _ => []
  | _ + 1, [] => []
  | fuel + 1, l@(c :: rest) =>
    if c.isDigit then
      match scanNumAt l with
      | some (lit, r) => lit :: numLitsFuel fuel r
      | none => numLitsFuel fuel rest
    else numLitsFuel fuel rest

/-- Embedding of the global match
`expression.match(/(\d+(?:,\d{3})*(?:\.\d+)?)/g)`: all numeric literals
of the string, scanned left to right. -/
def numLits (l : List Char) : List (List Char) :=
  numLitsFuel l.length l

/-- Rational value of one numeric literal (after JS
`parseFloat(lit.replace(/,/g, ''))`): integer part plus decimal part.
Every literal handled in the verified claims is exactly representable,
so the exact rational agrees with the JS double. -/
def parseNumLit (lit : List Char) : Rat :=
  let noCommas := lit.filter (fun c => c != ',')
  let ip := noCommas.takeWhile Char.isDigit
  let rest := noCommas.dropWhile Char.isDigit
  let fp := match rest with
    | '.' :: ds => ds.takeWhile Char.isDigit
    | _ => []
  (digitsToNat ip : Rat) + (digitsToNat fp : Rat) / ((10 : Rat) ^ fp.length)

/-! ## Data model: JSON values and tool results -/

/-- Dynamic JSON-shaped values, modelling the untyped `data` payloads. -/
inductive Json where
  | null : Json
  | bool : Bool → Json
  | num : Rat → Json
  | str : String → Json
  | arr : List Json → Json
  | obj : List (String × Json) → Json

/-- Field lookup in a JSON object value. -/
def dataField (j : Json) (name : String) : Option Json :=
  match j with
  | .obj fs => fs.lookup name
  | _ => none

/-- Embedding of the `ToolResult` interface:
`{ success: boolean, data: any, error?: string, executionTime?: number }`. -/
structure ToolResult where
  success : Bool
  data : Json
  error : Option String := none
  executionTime : Option Nat := none

/-- Shape of the `blink.data.search` response consumed by the search
tool (each optional list models a possibly-absent response array). -/
structure SearchResponse where
  organic_results : Option (List Json)
  news_results : Option (List Json)
  related_searches : Option (List Json)
  answer_box : Option Json

/-- Environment of external collaborators.  Each field gives the outcome
of one collaborator call as a function of its input; `Except.error m`
models a thrown exception (or rejected promise) with message `m`. -/
structure Env where
  /-- Outcome of `blink.data.search(query, ...)`. -/
  searchOutcome : String → Except String SearchResponse
  /-- Outcome of the maps edge-function `fetch` plus `response.json()`;
  an error models a network failure or a non-OK HTTP status. -/
  mapsOutcome : String → Except String Json
  /-- Outcome of `new Function('return ' + sanitized)()` in the basic
  calculator branch: `Except.ok (some r)` is a finite numeric result,
  `Except.ok none` a non-numeric or non-finite result (which the code
  converts into an `Invalid calculation result` error), and
  `Except.error m` a thrown evaluation error. -/
  evalOutcome : String → Except String (Option Rat)
  /-- Outcome of `blink.ai.generateObject` in the market-analysis tool. -/
  genObjectOutcome : String → Except String Json
  /-- Outcome of the fallback `blink.ai.generateText` call. -/
  genTextOutcome : String → Except String String
  /-- Wall-clock `Date.now() - startTime` recorded by the timed tools. -/
  elapsed : Nat

/-! ## Tool registry (`ReActTools`) -/

/-- Embedding of `ReActTools.search`.  The `|| []` / `|| null` / `|| 0`
defaults on absent response arrays are modelled by the `Option`
defaults (JS falsiness beyond absence does not arise for arrays). -/
def ReActTools.search (env : Env) (query : String) : ToolResult :=
  match env.searchOutcome query with
  | .ok resp =>
    { success := true
      data := Json.obj
        [ ("query", Json.str query)
        , ("organic_results", Json.arr ((resp.organic_results.getD []).take 5))
        , ("news_results", Json.arr ((resp.news_results.getD []).take 3))
        , ("related_searches", Json.arr ((resp.related_searches.getD []).take 3))
        , ("answer_box", resp.answer_box.getD Json.null)
        , ("total_results", Json.num ((resp.organic_results.getD []).length : Rat)) ]
      executionTime := some env.elapsed }
  | .error e =>
    { success := false
      data := Json.null
      error := some ("Search failed: " ++ e)
      executionTime := some env.elapsed }

/-- The synthesized fallback payload of `ReActTools.maps` ("mock data
for development"), emitted when the maps collaborator fails. -/
def mapsFallback (query : String) : Json :=
  Json.obj
    [ ("query", Json.str query)
    , ("places", Json.arr
        [ Json.obj
            [ ("name", Json.str (if jsIncludes query "Kathmandu" then "Kathmandu Valley" else "Nepal Location"))
            , ("address", Json.str query)
            , ("coordinates", Json.obj [("lat", Json.num (271772 / 10000 : Rat)), ("lng", Json.num (853240 / 10000 : Rat))])
            , ("nearby_amenities", Json.arr [Json.str "Schools", Json.str "Hospitals", Json.str "Markets", Json.str "Transport"])
            , ("commute_info", Json.str "Well connected to major areas")
            , ("infrastructure", Json.str "Good road connectivity and utilities")
            , ("safety_rating", Json.str "Good")
            , ("demographics", Json.str "Mixed residential and commercial area") ] ])
    , ("infrastructure_projects", Json.arr
        [ Json.str "Road expansion planned for 2024"
        , Json.str "New metro line under construction" ])
    , ("commute_times", Json.obj
        [ ("City Center", Json.str "15-20 minutes")
        , ("Airport", Json.str "30-40 minutes")
        , ("Business District", Json.str "10-15 minutes") ]) ]

/-- Embedding of `ReActTools.maps`: on any transport or HTTP failure the
catch block returns the fallback payload with `success: true`. -/
def ReActTools.maps (env : Env) (query : String) : ToolResult :=
  match env.mapsOutcome query with
  | .ok d =>
    { success := true, data := d, executionTime := some env.elapsed }
  | .error _ =>
    { success := true, data := mapsFallback query, executionTime := some env.elapsed }

/-- Embedding of `ReActTools.interpretCalculationResult`. -/
def interpretCalculationResult (result : Rat) (type : String) : String :=
  if type = "roi" then
    if result > 20 then "Excellent ROI - Very attractive investment"
    else if result > 15 then "Good ROI - Solid investment opportunity"
    else if result > 10 then "Moderate ROI - Acceptable investment"
    else if result > 5 then "Low ROI - Consider other options"
    else "Poor ROI - Not recommended"
  else if type = "rental_yield" then
    if result > 8 then "Excellent rental yield - Very profitable"
    else if result > 6 then "Good rental yield - Profitable investment"
    else if result > 4 then "Moderate rental yield - Average returns"
    else if result > 2 then "Low rental yield - Below market average"
    else "Poor rental yield - Consider other investments"
  else "Calculation completed successfully"

/-- Decimal rendering of a rational, standing in for JS
`result.toLocaleString()` in the `formatted` field (locale-dependent
digit grouping is abstracted; no verified claim inspects this field). -/
def ratFormat (q : Rat) : String :=
  if q.den = 1 then toString q.num else toString q.num ++ "/" ++ toString q.den

/-- Success payload shared by the three calculator branches. -/
def calcData (expression : String) (result : Rat) (ctype : String) : Json :=
  Json.obj
    [ ("expression", Json.str expression)
    , ("result", Json.num result)
    , ("formatted", Json.str (ratFormat result))
    , ("calculation_type", Json.str ctype)
    , ("interpretation", Json.str (interpretCalculationResult result ctype)) ]

/-- Failure result shared by all calculator error paths: the catch block
produces `Calculation failed: <message>` with `data: null`. -/
def calcFailure (env : Env) (msg : String) : ToolResult :=
  { success := false
    data := Json.null
    error := some ("Calculation failed: " ++ msg)
    executionTime := some env.elapsed }

/-- The character set kept by the basic branch sanitization
`expression.replace(/[^0-9+\-*\/.() ]/g, '')`. -/
def calcAllowedChar (c : Char) : Bool :=
  c.isDigit || c == '+' || c == '-' || c == '*' || c == '/' || c == '.' || c == '(' || c == ')' || c == ' '

/-- Embedding of `ReActTools.calculator`.  The ROI and rental-yield
branches divide by the second extracted literal; a zero divisor makes
the JS result non-finite and trips the `isFinite` guard, which the
embedding models by the explicit zero test. -/
def ReActTools.calculator (env : Env) (expression : String) : ToolResult :=
  let lowered := jsToLower expression
  if jsIncludes lowered "roi" || jsIncludes lowered "return on investment" then
    match numLits expression.data with
    | g :: c :: _ =>
      let gain := parseNumLit g
      let cost := parseNumLit c
      if cost = 0 then calcFailure env "Invalid calculation result"
      else
        { success := true
          data := calcData expression (((gain - cost) / cost) * 100) "roi"
          executionTime := some env.elapsed }
    | _ => calcFailure env "ROI calculation requires gain and cost values"
  else if jsIncludes lowered "rental yield" then
    match numLits expression.data with
    | a :: v :: _ =>
      let annualRent := parseNumLit a
      let propertyValue := parseNumLit v
      if propertyValue = 0 then calcFailure env "Invalid calculation result"
      else
        { success := true
          data := calcData expression ((annualRent / propertyValue) * 100) "rental_yield"
          executionTime := some env.elapsed }
    | _ => calcFailure env "Rental yield calculation requires annual rent and property value"
  else
    let sanitized := String.mk (expression.data.filter calcAllowedChar)
    match env.evalOutcome sanitized with
    | .ok (some r) =>
      { success := true
        data := calcData expression r "basic"
        executionTime := some env.elapsed }
    | .ok none => calcFailure env "Invalid calculation result"
    | .error m => calcFailure env m

/-! ## Market analysis and clarification tools -/

/-- Embedding of `ReActTools.marketAnalysis`.  The structured-generation
collaborator is consulted first; on failure a free-text fallback is
wrapped in a minimal structure; if both fail, the error carries the
FIRST failure's message (the outer catch variable). -/
def ReActTools.marketAnalysis (env : Env) (topic : String) : ToolResult :=
  match env.genObjectOutcome topic with
  | .ok o => { success := true, data := o, executionTime := some env.elapsed }
  | .error e =>
    match env.genTextOutcome topic with
    | .ok text =>
      { success := true
        data := Json.obj
          [ ("topic", Json.str topic)
          , ("analysis", Json.str text)
          , ("market_trends", Json.arr
              [ Json.str "Growing demand in Kathmandu Valley"
              , Json.str "Infrastructure development driving prices"
              , Json.str "Foreign investment increasing" ])
          , ("key_insights", Json.arr
              [ Json.str "Land appreciation outpacing built properties"
              , Json.str "Rental yields averaging 6-8%"
              , Json.str "Commercial properties showing strong growth" ]) ]
        executionTime := some env.elapsed }
    | .error _ =>
      { success := false
        data := Json.null
        error := some ("Market analysis failed: " ++ e)
        executionTime := some env.elapsed }

/-- Embedding of `ReActTools.clarify`: always succeeds, zero recorded
execution time. -/
def ReActTools.clarify (question : String) : ToolResult :=
  { success := true
    data := Json.obj
      [ ("clarification_needed", Json.bool true)
      , ("question", Json.str question)
      , ("suggested_details", Json.arr
          [ Json.str "Property type (apartment, house, commercial, land)"
          , Json.str "Budget range in NPR"
          , Json.str "Preferred location/area"
          , Json.str "Number of bedrooms/bathrooms"
          , Json.str "Rent or purchase"
          , Json.str "Specific amenities or features" ]) ]
    executionTime := some 0 }

/-! ## Property-query parsing (`ReActTools.parsePropertyQuery`)

Each `match...At` function attempts one regex of the source at a fixed
start position; `scanMatch` then scans start positions left to right as
the JS engine does.  All the regexes need at least one character, so
the end-of-string position never matches and is omitted from the scan.
Where the JS engine could backtrack, the relevant alternative is either
implemented explicitly (the optional range group of the price regex) or
provably irrelevant (a shorter greedy `\d+`/`\s+` always leaves the
next mandatory token facing a character it cannot match). -/

/-- Tries a position-fixed matcher at every start position, leftmost
match first, as `String.prototype.match` with a non-global regex. -/
def scanMatch {α : Type} (f : List Char → Option α) : List Char → Option α
  | [] => none
  | l@(_ :: rest) =>
    match f l with
    | some a => some a
    | none => scanMatch f rest

/-- JS `parseInt(lit.replace(/,/g, ''))` on a numeric literal (which
always starts with a digit, so the result is never `NaN`). -/
def parseIntLit (lit : List Char) : Nat :=
  (parseIntOpt (lit.filter (fun c => c != ','))).getD 0

/-- The `(?:\s*(?:NPR|rupees?|rs\.?))` tail of the price regex: the
optional `s`/`.` endings cannot affect whether the tail matches. -/
def matchCurrencyTail (l : List Char) : Bool :=
  let r := dropWs l
  (ciStrip "NPR" r).isSome || (ciStrip "rupee" r).isSome || (ciStrip "rs" r).isSome

/-- The optional `(?:\s*-\s*(num))?` range tail, returning the second
captured literal and the remainder. -/
def matchRangeTail (l : List Char) : Option (List Char × List Char) :=
  match dropWs l with
  | '-' :: rest => scanNumAt (dropWs rest)
  | _ => none

/-- One attempt of
`/(\d+(?:,\d{3})*(?:\.\d+)?)(?:\s*-\s*(\d+...))?(?:\s*(?:NPR|rupees?|rs\.?))/i`
at a fixed position; returns `(minPrice, maxPrice?)`.  When the range
group matches but no currency word follows it, the engine backtracks
and retries without the optional range group. -/
def matchPriceAt (l : List Char) : Option (Nat × Option Nat) :=
  match scanNumAt l with
  | some (lit1, r1) =>
    match matchRangeTail r1 with
    | some (lit2, r2) =>
      if matchCurrencyTail r2 then some (parseIntLit lit1, some (parseIntLit lit2))
      else if matchCurrencyTail r1 then some (parseIntLit lit1, none)
      else none
    | none =>
      if matchCurrencyTail r1 then some (parseIntLit lit1, none) else none
  | none => none

/-- Strips an optional `(?:w\s+)?` group: the group participates only
when the word is followed by whitespace (otherwise the engine
backtracks and skips the group). -/
def stripOptWord (w : String) (l : List Char) : List Char :=
  match ciStrip w l with
  | some r =>
    match r with
    | c :: _ => if isWsChar c then dropWs r else l
    | [] => l
  | none => l

/-- One attempt of
`/budget\s+(?:of\s+)?(?:NPR\s+)?(num)(?:\s*-\s*(num))?/i` at a fixed
position; returns `(minPrice, maxPrice?)`. -/
def matchBudgetAt (l : List Char) : Option (Nat × Option Nat) :=
  match ciStrip "budget" l with
  | some r0 =>
    match r0 with
    | c :: _ =>
      if isWsChar c then
        let r1 := stripOptWord "NPR" (stripOptWord "of" (dropWs r0))
        match scanNumAt r1 with
        | some (lit1, r2) =>
          match matchRangeTail r2 with
          | some (lit2, _) => some (parseIntLit lit1, some (parseIntLit lit2))
          | none => some (parseIntLit lit1, none)
        | none => none
      else none
    | [] => none
  | none => none

/-- One attempt of `/(\d+)\s*(?:BHK|bedroom|BR|bed)/i` at a fixed
position. -/
def matchBedroomAt (l : List Char) : Option Nat :=
  let ds := l.takeWhile Char.isDigit
  if ds.isEmpty then none
  else
    let r := dropWs (l.dropWhile Char.isDigit)
    if (ciStrip "BHK" r).isSome || (ciStrip "bedroom" r).isSome
        || (ciStrip "BR" r).isSome || (ciStrip "bed" r).isSome then
      some (digitsToNat ds)
    else none

/-- ASCII letter test for the `[A-Za-z\s]` character class. -/
def isAZ (c : Char) : Bool :=
  ('A' ≤ c && c ≤ 'Z') || ('a' ≤ c && c ≤ 'z')

/-- The `(?:\s|$|budget|price|NPR|for|with)` terminator of the lazy
location capture, tested at the current position. -/
def locTermAt (l : List Char) : Bool :=
  match l with
  | [] => true
  | c :: _ =>
    isWsChar c || ciPre "budget".data l || ciPre "price".data l
      || ciPre "NPR".data l || ciPre "for".data l || ciPre "with".data l

/-- Lazy extension of the `([A-Za-z\s]+?)` capture: with at least one
character captured (held reversed in `acc`), stop as soon as the
terminator matches, otherwise extend within the class. -/
def locGroupAux (acc : List Char) : List Char → Option (List Char)
  | [] => some acc.reverse
  | l@(c :: rest) =>
    if locTermAt l then some acc.reverse
    else if isAZ c || isWsChar c then locGroupAux (c :: acc) rest
    else none

/-- One attempt of
`/(?:in|at|near|around)\s+([A-Za-z\s]+?)(?:\s|$|budget|price|NPR|for|with)/i`
at a fixed position (the four keywords are pairwise prefix-disjoint, so
alternation order is immaterial). -/
def matchLocAt (l : List Char) : Option (List Char) :=
  match (ciStrip "in" l).orElse (fun _ => (ciStrip "at" l).orElse (fun _ =>
      (ciStrip "near" l).orElse (fun _ => ciStrip "around" l))) with
  | some r0 =>
    match r0 with
    | c :: _ =>
      if isWsChar c then
        match dropWs r0 with
        | c1 :: rest1 => if isAZ c1 then locGroupAux [c1] rest1 else none
        | [] => none
      else none
    | [] => none
  | none => none

/-- Parsed search criteria (`any`-typed in the source; the fields are
exactly those the parser may assign). -/
structure SearchCriteria where
  minPrice : Option Nat := none
  maxPrice : Option Nat := none
  bedrooms : Option Nat := none
  location : Option String := none
  propertyType : Option String := none
  priceType : Option String := none
deriving DecidableEq

/-- Embedding of `ReActTools.parsePropertyQuery`.  The budget regex,
when it matches, overwrites `minPrice` and (only when its range group
matched) `maxPrice`. -/
def parsePropertyQuery (query : String) : SearchCriteria :=
  let q := query.data
  let priceM := scanMatch matchPriceAt q
  let minMax1 : Option Nat × Option Nat :=
    match priceM with
    | some (a, b) => (some a, b)
    | none => (none, none)
  let budgetM := scanMatch matchBudgetAt q
  let minMax2 : Option Nat × Option Nat :=
    match budgetM with
    | some (a, some b) => (some a, some b)
    | some (a, none) => (some a, minMax1.2)
    | none => minMax1
  let lowered := jsToLower query
  { minPrice := minMax2.1
    maxPrice := minMax2.2
    bedrooms := scanMatch matchBedroomAt q
    location := (scanMatch matchLocAt q).map (fun g => jsTrim (String.mk g))
    propertyType :=
      if jsIncludes lowered "commercial" then some "commercial"
      else if jsIncludes lowered "land" then some "land"
      else if jsIncludes lowered "house" then some "house"
      else if jsIncludes lowered "apartment" || jsIncludes lowered "flat" then some "apartment"
      else none
    priceType :=
      if jsIncludes lowered "for rent" || jsIncludes lowered "rental" then some "rent"
      else if jsIncludes lowered "for sale" || jsIncludes lowered "buy" then some "sale"
      else none }

/-! ## Property corpus and database tool -/

/-- One entry of the mock property corpus. -/
structure MockProperty where
  id : String
  title : String
  price : Nat
  priceType : String
  bedrooms : Nat
  bathrooms : Nat
  area : Nat
  areaUnit : Option String := none
  location : String
  amenities : List String
  features : List String
  match_score : Rat
  property_age : String
  floor : String
deriving DecidableEq

/-- The five-entry mock property database of `ReActTools.propertyDatabase`. -/
def mockProperties : List MockProperty :=
  [ { id := "1", title := "2BHK Modern Apartment in Kupondole", price := 32000
      priceType := "rent", bedrooms := 2, bathrooms := 2, area := 800
      location := "Kupondole, Lalitpur"
      amenities := ["Parking", "WiFi", "Security", "Elevator"]
      features := ["Modern Kitchen", "Balcony", "Furnished"]
      match_score := (95 : Rat) / 100, property_age := "2 years", floor := "4th Floor" }
  , { id := "2", title := "2BHK Spacious Flat in Pulchowk", price := 35000
      priceType := "rent", bedrooms := 2, bathrooms := 2, area := 900
      location := "Pulchowk, Lalitpur"
      amenities := ["Parking", "Elevator", "Garden", "Security"]
      features := ["Garden View", "Semi-Furnished", "Storage"]
      match_score := (88 : Rat) / 100, property_age := "1 year", floor := "3rd Floor" }
  , { id := "3", title := "3BHK Family House in Baneshwor", price := 45000
      priceType := "rent", bedrooms := 3, bathrooms := 3, area := 1200
      location := "Baneshwor, Kathmandu"
      amenities := ["Parking", "Garden", "Security", "Water Tank"]
      features := ["Independent House", "Terrace", "Unfurnished"]
      match_score := (82 : Rat) / 100, property_age := "5 years", floor := "Ground + 1" }
  , { id := "4", title := "Commercial Space in Thamel", price := 80000
      priceType := "rent", bedrooms := 0, bathrooms := 2, area := 600
      location := "Thamel, Kathmandu"
      amenities := ["Parking", "WiFi", "Security", "Generator"]
      features := ["Street Facing", "High Footfall", "Restaurant Ready"]
      match_score := (90 : Rat) / 100, property_age := "3 years", floor := "Ground Floor" }
  , { id := "5", title := "Land for Sale in Godawari", price := 15000000
      priceType := "sale", bedrooms := 0, bathrooms := 0, area := 5
      areaUnit := some "ropani", location := "Godawari, Lalitpur"
      amenities := ["Road Access", "Electricity", "Water Source"]
      features := ["Development Ready", "Clear Title", "Investment Grade"]
      match_score := (85 : Rat) / 100, property_age := "N/A", floor := "N/A" } ]

/-- A criteria field is consulted only when JS-truthy: `0` and the
empty string are treated as absent. -/
def natCrit : Option Nat → Option Nat
  | some 0 => none
  | o => o

/-- String criteria field under JS truthiness. -/
def strCrit : Option String → Option String
  | some "" => none
  | o => o

/-- Embedding of the filter predicate of `ReActTools.propertyDatabase`
(each clause mirrors one `if (...) return false` line). -/
def passesFilter (c : SearchCriteria) (p : MockProperty) : Bool :=
  (match natCrit c.maxPrice with | some m => decide (p.price ≤ m) | none => true) &&
  (match natCrit c.minPrice with | some m => decide (m ≤ p.price) | none => true) &&
  (match natCrit c.bedrooms with | some b => p.bedrooms == b | none => true) &&
  (match strCrit c.location with
   | some loc => jsIncludes (jsToLower p.location) (jsToLower loc)
   | none => true) &&
  (match strCrit c.propertyType with
   | some t =>
     if t == "commercial" then jsIncludes (jsToLower p.title) "commercial"
     else if t == "land" then jsIncludes (jsToLower p.title) "land"
     else if t == "house" then jsIncludes (jsToLower p.title) "house"
     else if t == "apartment" then
       jsIncludes (jsToLower p.title) "apartment" || jsIncludes (jsToLower p.title) "flat"
     else true
   | none => true) &&
  (match strCrit c.priceType with | some pt => p.priceType == pt | none => true)

/-- Stable insertion step for the descending `match_score` sort. -/
def insertByScore (p : MockProperty) : List MockProperty → List MockProperty
  | [] => [p]
  | q :: qs => if p.match_score > q.match_score then p :: q :: qs else q :: insertByScore p qs

/-- Stable sort by `match_score` descending, embedding
`filteredProperties.sort((a, b) => b.match_score - a.match_score)`. -/
def sortByScoreDesc (l : List MockProperty) : List MockProperty :=
  l.foldr insertByScore []

/-- JSON rendering of one corpus entry (fields in source object order;
`areaUnit` present only where assigned). -/
def propToJson (p : MockProperty) : Json :=
  Json.obj (
    [ ("id", Json.str p.id)
    , ("title", Json.str p.title)
    , ("price", Json.num (p.price : Rat))
    , ("priceType", Json.str p.priceType)
    , ("bedrooms", Json.num (p.bedrooms : Rat))
    , ("bathrooms", Json.num (p.bathrooms : Rat))
    , ("area", Json.num (p.area : Rat)) ]
    ++ (match p.areaUnit with
        | some u => [("areaUnit", Json.str u)]
        | none => [])
    ++ [ ("location", Json.str p.location)
       , ("amenities", Json.arr (p.amenities.map Json.str))
       , ("features", Json.arr (p.features.map Json.str))
       , ("match_score", Json.num p.match_score)
       , ("property_age", Json.str p.property_age)
       , ("floor", Json.str p.floor) ])

/-- JSON rendering of the parsed criteria (keys in assignment order,
present only when assigned, matching JS object construction). -/
def criteriaToJson (c : SearchCriteria) : Json :=
  Json.obj (
    (match c.minPrice with | some n => [("minPrice", Json.num (n : Rat))] | none => []) ++
    (match c.maxPrice with | some n => [("maxPrice", Json.num (n : Rat))] | none => []) ++
    (match c.bedrooms with | some n => [("bedrooms", Json.num (n : Rat))] | none => []) ++
    (match c.location with | some s => [("location", Json.str s)] | none => []) ++
    (match c.propertyType with | some s => [("propertyType", Json.str s)] | none => []) ++
    (match c.priceType with | some s => [("priceType", Json.str s)] | none => []))

/-- Embedding of `ReActTools.propertyDatabase`.  The body is pure, so
the catch branch of the source is unreachable and the tool always
succeeds. -/
def ReActTools.propertyDatabase (env : Env) (query : String) : ToolResult :=
  let searchCriteria := parsePropertyQuery query
  let filtered := mockProperties.filter (passesFilter searchCriteria)
  let sorted := sortByScoreDesc filtered
  { success := true
    data := Json.obj
      [ ("query", Json.str query)
      , ("total_found", Json.num (filtered.length : Rat))
      , ("properties", Json.arr ((sorted.take 10).map propToJson))
      , ("search_criteria", criteriaToJson searchCriteria)
      , ("database_stats", Json.obj
          [ ("total_properties", Json.num (mockProperties.length : Rat))
          , ("avg_rent_2bhk", Json.num 35000)
          , ("avg_sale_price_land", Json.num 12000000)
          , ("popular_areas", Json.arr
              [Json.str "Kupondole", Json.str "Pulchowk", Json.str "Baneshwor", Json.str "Thamel"]) ]) ]
    executionTime := some env.elapsed }

/-! ## Tool dispatch (`ReActAgent.executeToolAsync`'s switch) -/

/-- The default branch of the dispatch switch for an unrecognized tool
name. -/
def unknownToolResult (name : String) : ToolResult :=
  { success := false
    data := Json.null
    error := some ("Unknown tool: " ++ name)
    executionTime := some 0 }

/-- Embedding of the `switch (step.actionName.toLowerCase())` dispatch. -/
def dispatchTool (env : Env) (name input : String) : ToolResult :=
  let n := jsToLower name
  if n = "search" then ReActTools.search env input
  else if n = "maps" then ReActTools.maps env input
  else if n = "calculator" then ReActTools.calculator env input
  else if n = "marketanalysis" then ReActTools.marketAnalysis env input
  else if n = "propertydatabase" then ReActTools.propertyDatabase env input
  else if n = "clarify" then ReActTools.clarify input
  else unknownToolResult name

/-! ## Trace parser (`ReActAgent.parseReActResponse`) -/

/-- Step kinds of the `ReActStep` interface. -/
inductive StepType where
  | thought : StepType
  | action : StepType
  | observation : StepType
deriving DecidableEq

/-- Embedding of the `ReActStep` interface (the `timestamp: Date` field
is omitted; no verified claim concerns wall-clock times). -/
structure ReActStep where
  type : StepType
  content : String
  actionName : Option String := none
  actionInput : Option String := none
  toolResult : Option ToolResult := none

/-- Embedding of the `ReActResponse` interface. -/
structure ReActResponse where
  steps : List ReActStep
  finalAnswer : String
  isComplete : Bool
  needsClarification : Bool

mutual

/-- String rendering of JSON values, standing in for
`JSON.stringify(data, null, 2)` in observation texts (the pretty-printing
whitespace is abstracted; no verified claim inspects observation text). -/
def jsonRender : Json → String
  | .null => "null"
  | .bool b => cond b "true" "false"
  | .num q => ratFormat q
  | .str s => "\"" ++ s ++ "\""
  | .arr xs => "[" ++ jsonRenderList xs ++ "]"
  | .obj fs => "\x7b" ++ jsonRenderFields fs ++ "\x7d"

def jsonRenderList : List Json → String
  | [] => ""
  | [x] => jsonRender x
  | x :: xs => jsonRender x ++ "," ++ jsonRenderList xs

def jsonRenderFields : List (String × Json) → String
  | [] => ""
  | [(k, v)] => "\"" ++ k ++ "\":" ++ jsonRender v
  | (k, v) :: fs => "\"" ++ k ++ "\":" ++ jsonRender v ++ "," ++ jsonRenderFields fs
end

/-- Template interpolation of an optional number (`undefined` prints as
the string "undefined" in JS template literals). -/
def optNatRender : Option Nat → String
  | some n => toString n
  | none => "undefined"

/-- Template interpolation of an optional string. -/
def optStrRender : Option String → String
  | some s => s
  | none => "undefined"

/-- The observation step synthesized from a tool result. -/
def obsStep (r : ToolResult) : ReActStep :=
  { type := .observation
    content :=
      if r.success then
        "Tool executed successfully in " ++ optNatRender r.executionTime
          ++ "ms. Result: " ++ jsonRender r.data
      else
        "Tool execution failed: " ++ optStrRender r.error
    toolResult := some r }

/-- Embedding of `ReActAgent.executeToolAsync`: reads the (already
mutated) action step; returns the step with its attached result and the
observation step to append, or no observation when the guard
`!step.actionName || !step.actionInput` (absent or empty) fires.  The
tool embeddings are total, so the source's catch branch is unreachable. -/
def executeToolAsync (env : Env) (s : ReActStep) : ReActStep × Option ReActStep :=
  match s.actionName, s.actionInput with
  | some name, some input =>
    if name = "" || input = "" then (s, none)
    else
      let r := dispatchTool env name input
      ({ s with toolResult := some r }, some (obsStep r))
  | _, _ => (s, none)

/-- In-place update of the element at index `i`, modelling mutation of
an object already pushed into the `steps` array. -/
def updateAt {α : Type} (i : Nat) (f : α → α) : List α → List α
  | [] => []
  | x :: xs =>
    match i with
    | 0 => f x :: xs
    | j + 1 => x :: updateAt j f xs

/-- Classification of a (trimmed) line by the parser's `else if` chain. -/
inductive LineKind where
  | thought : LineKind
  | action : LineKind
  | actionInput : LineKind
  | observation : LineKind
  | finalAnswer : LineKind
  | other : LineKind
deriving DecidableEq

/-- The label a trimmed line starts with, in the source's test order. -/
def lineKind (t : String) : LineKind :=
  if jsStartsWith t "Thought:" then .thought
  else if jsStartsWith t "Action:" then .action
  else if jsStartsWith t "Action Input:" then .actionInput
  else if jsStartsWith t "Observation:" then .observation
  else if jsStartsWith t "Final Answer:" then .finalAnswer
  else .other

/-- The clarification heuristic applied to a `Final Answer:` content:
a question mark plus one of six request-for-detail phrases. -/
def clarifHeuristic (finalAnswer : String) : Bool :=
  finalAnswer.data.contains '?' &&
    (jsIncludes (jsToLower finalAnswer) "could you"
      || jsIncludes (jsToLower finalAnswer) "please tell me"
      || jsIncludes (jsToLower finalAnswer) "what kind of"
      || jsIncludes (jsToLower finalAnswer) "more details"
      || jsIncludes (jsToLower finalAnswer) "help me"
      || jsIncludes (jsToLower finalAnswer) "tell me more")

/-- Mutable state of the parsing loop: the growing `steps` array, the
`finalAnswer` and `needsClarification` locals, and `currentStep` as an
index into `steps` (the source holds an object reference into the
array). -/
structure ParseState where
  steps : List ReActStep
  finalAnswer : String
  needsClarification : Bool
  current : Option Nat

/-- One iteration of the parsing loop on one (non-blank) line. -/
def stepLine (env : Env) (st : ParseState) (line : String) : ParseState :=
  let t := jsTrim line
  match lineKind t with
  | .thought =>
    { st with steps := st.steps ++ [{ type := .thought, content := jsTrim (jsDrop 8 t) }] }
  | .action =>
    let actionName := jsTrim (jsDrop 7 t)
    { st with
      steps := st.steps ++
        [{ type := .action
           content := "Action: " ++ actionName
           actionName := some actionName }]
      current := some st.steps.length }
  | .actionInput =>
    let actionInput := jsTrim (jsDrop 13 t)
    match st.current with
    | some i =>
      match st.steps.get? i with
      | some s =>
        if s.type = .action then
          let s1 := { s with
            actionInput := some actionInput
            content := s.content ++ "\nAction Input: " ++ actionInput }
          let (s2, obs) := executeToolAsync env s1
          { st with
            steps := updateAt i (fun _ => s2) st.steps ++ obs.toList }
        else st
      | none => st
    | none => st
  | .observation => st
  | .finalAnswer =>
    let fa := jsTrim (jsDrop 13 t)
    { st with
      finalAnswer := fa
      needsClarification := st.needsClarification || clarifHeuristic fa }
  | .other => st

/-- The parsing loop over the non-blank lines. -/
def runLines (env : Env) (st : ParseState) : List String → ParseState
  | [] => st
  | l :: ls => runLines env (stepLine env st l) ls

/-! ### Fallback extraction of the final answer

`/Final Answer:\s*([\s\S]+?)(?:\n\n|\n$|$)/i` over the whole response:
first case-insensitive occurrence of the label followed by at least one
character; greedy `\s*` (giving back at most enough for the lazy group
to be nonempty); lazy capture up to the first blank line, trailing
newline, or end of input. -/

/-- Lazy `([\s\S]+?)(?:\n\n|\n$|$)` capture: the chars after the first
captured one, stopping before `\n\n`, a final `\n`, or the end. -/
def faGroupAux : List Char → List Char
  | [] => []
  | ['\n'] => []
  | '\n' :: '\n' :: _ => []
  | c :: rest => c :: faGroupAux rest

/-- The whole lazy capture (at least one character). -/
def faGroup : List Char → List Char
  | [] => []
  | c :: rest => c :: faGroupAux rest

/-- Finds the first position whose case-insensitive `Final Answer:`
label is followed by at least one character, returning what follows the
label. -/
def findFALabel : List Char → Option (List Char)
  | [] => none
  | l@(_ :: cs) =>
    if ciPre "Final Answer:".data l then
      let rest := l.drop 13
      if rest.isEmpty then findFALabel cs else some rest
    else findFALabel cs

/-- The captured group of the fallback regex, if it matches. -/
def finalAnswerFallback (s : String) : Option String :=
  match findFALabel s.data with
  | some rest =>
    let ws := (rest.takeWhile isWsChar).length
    some (String.mk (faGroup (rest.drop (min ws (rest.length - 1)))))
  | none => none

/-- The canned default final answer. -/
def cannedFinalAnswer : String :=
  "I need more information to provide a helpful response."

/-- Embedding of `ReActAgent.parseReActResponse` (the `steps` field of
the agent was reset to `[]` by `processQuery` before parsing starts). -/
def parseReActResponse (env : Env) (response : String) : ReActResponse :=
  let st := runLines env ⟨[], "", false, none⟩ (linesOf response)
  let fa1 :=
    if st.finalAnswer = "" then
      match finalAnswerFallback response with
      | some g => jsTrim g
      | none => ""
    else st.finalAnswer
  { steps := st.steps
    finalAnswer := if fa1 = "" then cannedFinalAnswer else fa1
    isComplete := true
    needsClarification := st.needsClarification }

/-! ## Memory manager (`MemoryManager`)

The repository holds two revisions of this module; they differ only in
`extractAndUpdatePreferences`.  The context optimizer below is common
to both; the budget extraction embeds the revision with the extended
pattern list and the `budget > 1000` threshold. -/

/-- Message roles. -/
inductive Role where
  | user : Role
  | assistant : Role
  | system : Role
deriving DecidableEq

/-- Embedding of the `ConversationMessage` interface (`timestamp` is a
JS epoch number; the `metadata` blob is omitted — the context optimizer
reads only `role` and `content`). -/
structure ConversationMessage where
  id : String
  role : Role
  content : String
  timestamp : Nat

/-- Embedding of `ConversationSession` (the `context` sub-object is
reduced to its `lastActivity` field; the optimizer touches neither). -/
structure ConversationSession where
  id : String
  userId : String
  title : String
  messages : List ConversationMessage
  lastActivity : Nat
  createdAt : Nat
  updatedAt : Nat

/-- The `maxTokensEstimate` field of `MemoryManager`. -/
def maxTokensEstimate : Rat := 8000

/-- Token estimate of one message: `message.content.length / 4`
(exact in JS doubles, hence modelled as an exact rational). -/
def msgTokens (m : ConversationMessage) : Rat :=
  (m.content.length : Rat) / 4

/-- Token estimate of a message list. -/
def msgTokensSum (l : List ConversationMessage) : Rat :=
  (l.map msgTokens).sum

/-- The accumulation loop of `optimizeMessagesForContext`: scan the
non-system messages newest first from running total `tot`, stopping at
the first message that would push the total past the budget. -/
def selectRecent (tot : Rat) : List ConversationMessage → List ConversationMessage
  | [] => []
  | m :: ms =>
    if tot + msgTokens m > maxTokensEstimate then []
    else m :: selectRecent (tot + msgTokens m) ms

/-- Embedding of `MemoryManager.optimizeMessagesForContext`: system
messages are kept in full; other messages are scanned newest-first
under the token budget and `unshift`ed, so they end up oldest-first in
front of the system block. -/
def optimizeMessagesForContext (messages : List ConversationMessage) : List ConversationMessage :=
  let systemMessages := messages.filter (fun m => m.role == Role.system)
  let sysTokens := msgTokensSum systemMessages
  let others := (messages.filter (fun m => m.role != Role.system)).reverse
  (selectRecent sysTokens others).reverse ++ systemMessages

/-- Embedding of `MemoryManager.getConversationContext`: the empty list
without an active session, otherwise the optimized message history. -/
def getConversationContext (currentSession : Option ConversationSession) : List ConversationMessage :=
  match currentSession with
  | none => []
  | some s => optimizeMessagesForContext s.messages

/-! ## Preference extraction: budget patterns (part_009 revision)

Embeds the budget block of `extractAndUpdatePreferences` in the
revision of the memory manager with the `budgetPatterns` list and the
`budget > 1000` threshold (`src/unnamed/part_009`, lines 394-414); the
other revision (`src/src/lib/memory-manager.ts`) has a single pattern
and no threshold.  The message is lowercased before matching, so the
`/i` flags are inert. -/

/-- Greedy `([0-9,]+)` capture. -/
def digitsCommas (l : List Char) : Option (List Char) :=
  let g := l.takeWhile (fun c => c.isDigit || c == ',')
  if g.isEmpty then none else some g

/-- The `\s*(?:npr|rs)?\s*([0-9,]+)` tail shared by the first budget
pattern, including the backtrack that skips the optional currency
word. -/
def budgetTail (r : List Char) : Option (List Char) :=
  let r1 := dropWs r
  match (ciStrip "npr" r1).orElse (fun _ => ciStrip "rs" r1) with
  | some r2 => (digitsCommas (dropWs r2)).orElse (fun _ => digitsCommas r1)
  | none => digitsCommas r1

/-- One attempt of
`/(?:under|below|maximum|max|budget|afford)\s*(?:npr|rs)?\s*([0-9,]+)/i`
(keywords tried in source order; a keyword whose tail fails backtracks
to the next alternative). -/
def matchBudget1At (l : List Char) : Option (List Char) :=
  ((ciStrip "under" l).bind budgetTail).orElse (fun _ =>
  ((ciStrip "below" l).bind budgetTail).orElse (fun _ =>
  ((ciStrip "maximum" l).bind budgetTail).orElse (fun _ =>
  ((ciStrip "max" l).bind budgetTail).orElse (fun _ =>
  ((ciStrip "budget" l).bind budgetTail).orElse (fun _ =>
  (ciStrip "afford" l).bind budgetTail)))))

/-- One attempt of `/(?:npr|rs)\s*([0-9,]+)(?:\s*(?:per|\/)??\s*month)?/i`
(the optional month tail follows the capture and cannot affect it). -/
def matchBudget2At (l : List Char) : Option (List Char) :=
  ((ciStrip "npr" l).orElse (fun _ => ciStrip "rs" l)).bind
    (fun r => digitsCommas (dropWs r))

/-- One attempt of `/([0-9,]+)\s*(?:npr|rupees?|rs)/i`. -/
def matchBudget3At (l : List Char) : Option (List Char) :=
  match digitsCommas l with
  | some g =>
    let r1 := dropWs (l.drop g.length)
    if (ciStrip "npr" r1).isSome || (ciStrip "rupee" r1).isSome || (ciStrip "rs" r1).isSome
    then some g else none
  | none => none

/-- One attempt of `/budget\s*(?:of|is|around)?\s*([0-9,]+)/i`. -/
def matchBudget4At (l : List Char) : Option (List Char) :=
  (ciStrip "budget" l).bind fun r =>
    let r1 := dropWs r
    match (ciStrip "of" r1).orElse (fun _ =>
        (ciStrip "is" r1).orElse (fun _ => ciStrip "around" r1)) with
    | some r2 => (digitsCommas (dropWs r2)).orElse (fun _ => digitsCommas r1)
    | none => digitsCommas r1

/-- The `for (const pattern of budgetPatterns)` loop: the first pattern
that matches anywhere in the message wins and the loop breaks. -/
def firstBudgetMatch (msg : List Char) : Option (List Char) :=
  (scanMatch matchBudget1At msg).orElse (fun _ =>
  (scanMatch matchBudget2At msg).orElse (fun _ =>
  (scanMatch matchBudget3At msg).orElse (fun _ =>
  scanMatch matchBudget4At msg)))

/-- The parsed budget amount of a user message:
`parseInt(budgetMatch[1].replace(/,/g, ''))` on the first pattern
match; `none` covers both no match and a `NaN` parse (an all-comma
capture), which equally leave the stored price range unchanged. -/
def budgetAmountOf (userMessage : String) : Option Nat :=
  (firstBudgetMatch (jsToLower userMessage).data).bind
    (fun g => parseIntOpt (g.filter (fun c => c != ',')))

/-- The stored `priceRange` of `UserPreferences`. -/
structure PriceRange where
  min : Nat
  max : Nat
deriving DecidableEq

/-- The stored price range after one run of the part_009 budget
extraction on a user message, including the merge-by-overwrite step of
`updateUserPreferences`: a matched amount above the `1000` threshold
overwrites the maximum (keeping `priceRange?.min || 0`); anything else
leaves the stored range untouched. -/
def newPriceRange (current : Option PriceRange) (userMessage : String) : Option PriceRange :=
  match budgetAmountOf userMessage with
  | some budget =>
    if budget > 1000 then some ⟨(current.map PriceRange.min).getD 0, budget⟩
    else current
  | none => current

/-! ## Well-formed action/action-input pairs -/

/-- The tool name extracted from an `Action:` line. -/
def actionNameOf (l : String) : String :=
  jsTrim (jsDrop 7 (jsTrim l))

/-- The tool input extracted from an `Action Input:` line. -/
def actionInputOf (l : String) : String :=
  jsTrim (jsDrop 13 (jsTrim l))

/-- The content extracted from a `Final Answer:` line. -/
def faLineContent (l : String) : String :=
  jsTrim (jsDrop 13 (jsTrim l))

/-- The content step produced by a `Thought:` line. -/
def thoughtStepFor (l : String) : ReActStep :=
  { type := .thought, content := jsTrim (jsDrop 8 (jsTrim l)) }

/-- The completed action step for a well-formed pair, as the parser
leaves it after mutation and tool execution. -/
def actionStepFor (env : Env) (name input : String) : ReActStep :=
  { type := .action
    content := "Action: " ++ name ++ "\nAction Input: " ++ input
    actionName := some name
    actionInput := some input
    toolResult := some (dispatchTool env name input) }

/-- A line list contains exactly `n` well-formed `Action`/`Action Input`
pairs: every `Action:` line is immediately followed by its
`Action Input:` line, both with nonempty extracted text, and no stray
`Action Input:` line occurs outside such a pair. -/
inductive WfLines : List String → Nat → Prop where
  | nil : WfLines [] 0
  | skip (l : String) (ls : List String) (n : Nat) :
      lineKind (jsTrim l) ≠ .action → lineKind (jsTrim l) ≠ .actionInput →
      WfLines ls n → WfLines (l :: ls) n
  | pair (l l2 : String) (ls : List String) (n : Nat) :
      lineKind (jsTrim l) = .action → lineKind (jsTrim l2) = .actionInput →
      actionNameOf l ≠ "" → actionInputOf l2 ≠ "" →
      WfLines ls n → WfLines (l :: l2 :: ls) (n + 1)

/-- The step list a well-formed line list should produce: a step per
`Thought:` line, and a completed action step immediately followed by
the synthesized observation per well-formed pair. -/
def expectedSteps (env : Env) : List String → List ReActStep
  | [] => []
  | [l] =>
    match lineKind (jsTrim l) with
    | .thought => [thoughtStepFor l]
    | _ => []
  | l :: l2 :: ls =>
    match lineKind (jsTrim l) with
    | .thought => thoughtStepFor l :: expectedSteps env (l2 :: ls)
    | .action =>
      if lineKind (jsTrim l2) = .actionInput then
        actionStepFor env (actionNameOf l) (actionInputOf l2)
          :: obsStep (dispatchTool env (actionNameOf l) (actionInputOf l2))
          :: expectedSteps env ls
      else expectedSteps env (l2 :: ls)
    | _ => expectedSteps env (l2 :: ls)

/-- Updating the just-appended element of a list. -/
theorem updateAt_concat {α : Type} (f : α → α) (l : List α) (a : α) :
    updateAt l.length f (l ++ [a]) = l ++ [f a] := by
  induction l with
  | nil => rfl
  | cons x xs ih => simp [updateAt, ih]

/-- Reading the just-appended element of a list. -/
theorem get?_concat_len {α : Type} (l : List α) (a : α) :
    (l ++ [a]).get? l.length = some a := by
  induction l with
  | nil => rfl
  | cons x xs ih => exact ih

/-- Unfolding: the empty line list expects no steps. -/
theorem expectedSteps_nil (env : Env) : expectedSteps env [] = [] := by
  simp [expectedSteps]

/-- Unfolding: a `Thought:` line expects one thought step. -/
theorem expectedSteps_thought (env : Env) (l : String) (ls : List String)
    (hk : lineKind (jsTrim l) = .thought) :
    expectedSteps env (l :: ls) = thoughtStepFor l :: expectedSteps env ls := by
  cases ls <;> simp [expectedSteps, hk]

/-- Unfolding: an `Observation:` line expects nothing. -/
theorem expectedSteps_obs (env : Env) (l : String) (ls : List String)
    (hk : lineKind (jsTrim l) = .observation) :
    expectedSteps env (l :: ls) = expectedSteps env ls := by
  cases ls <;> simp [expectedSteps, hk]

/-- Unfolding: a `Final Answer:` line expects nothing. -/
theorem expectedSteps_fa (env : Env) (l : String) (ls : List String)
    (hk : lineKind (jsTrim l) = .finalAnswer) :
    expectedSteps env (l :: ls) = expectedSteps env ls := by
  cases ls <;> simp [expectedSteps, hk]

/-- Unfolding: an unlabeled line expects nothing. -/
theorem expectedSteps_other (env : Env) (l : String) (ls : List String)
    (hk : lineKind (jsTrim l) = .other) :
    expectedSteps env (l :: ls) = expectedSteps env ls := by
  cases ls <;> simp [expectedSteps, hk]

/-- Unfolding: a well-formed pair expects a completed action step
immediately followed by its observation. -/
theorem expectedSteps_pair (env : Env) (l l2 : String) (ls : List String)
    (ha : lineKind (jsTrim l) = .action) (hai : lineKind (jsTrim l2) = .actionInput) :
    expectedSteps env (l :: l2 :: ls) =
      actionStepFor env (actionNameOf l) (actionInputOf l2)
        :: obsStep (dispatchTool env (actionNameOf l) (actionInputOf l2))
        :: expectedSteps env ls := by
  simp [expectedSteps, ha, hai]

/-- Main parsing lemma: on a well-formed line list the loop appends
exactly the expected steps, from any starting state. -/
theorem runLines_wf_steps (env : Env) {ls : List String} {n : Nat}
    (h : WfLines ls n) :
    ∀ st : ParseState, (runLines env st ls).steps = st.steps ++ expectedSteps env ls := by
  induction h with
  | nil => intro st; simp [runLines, expectedSteps_nil]
  | skip l ls n h1 h2 _ ih =>
    intro st
    cases hk : lineKind (jsTrim l) with
    | thought =>
      simp only [runLines]
      rw [ih, expectedSteps_thought env l ls hk]
      simp [stepLine, hk, thoughtStepFor]
    | action => exact absurd hk h1
    | actionInput => exact absurd hk h2
    | observation =>
      simp only [runLines]
      rw [ih, expectedSteps_obs env l ls hk]
      simp [stepLine, hk]
    | finalAnswer =>
      simp only [runLines]
      rw [ih, expectedSteps_fa env l ls hk]
      simp [stepLine, hk]
    | other =>
      simp only [runLines]
      rw [ih, expectedSteps_other env l ls hk]
      simp [stepLine, hk]
  | pair l l2 ls n ha hai hname hinput _ ih =>
    intro st
    simp only [runLines]
    have hstep1 : stepLine env st l =
        { st with
          steps := st.steps ++
            [{ type := .action
               content := "Action: " ++ actionNameOf l
               actionName := some (actionNameOf l) }]
          current := some st.steps.length } := by
      simp [stepLine, ha, actionNameOf]
    rw [hstep1]
    have hstep2 : stepLine env
        { st with
          steps := st.steps ++
            [{ type := .action
               content := "Action: " ++ actionNameOf l
               actionName := some (actionNameOf l) }]
          current := some st.steps.length } l2 =
        { st with
          steps := st.steps ++
            [actionStepFor env (actionNameOf l) (actionInputOf l2),
             obsStep (dispatchTool env (actionNameOf l) (actionInputOf l2))]
          current := some st.steps.length } := by
      have hinput2 : jsTrim (jsDrop 13 (jsTrim l2)) ≠ "" := hinput
      simp only [stepLine, hai]
      rw [get?_concat_len]
      simp only [reduceIte]
      simp only [executeToolAsync]
      simp [hname, hinput2, updateAt_concat, actionStepFor, actionInputOf]
    rw [hstep2, ih]
    rw [expectedSteps_pair env l l2 ls ha hai]
    simp

/-- On a well-formed line list the expected steps contain exactly one
action step and one observation step per pair. -/
theorem expectedSteps_counts (env : Env) {ls : List String} {n : Nat}
    (h : WfLines ls n) :
    ((expectedSteps env ls).filter (fun s => s.type == StepType.action)).length = n ∧
    ((expectedSteps env ls).filter (fun s => s.type == StepType.observation)).length = n := by
  induction h with
  | nil => simp [expectedSteps_nil]
  | skip l ls n h1 h2 _ ih =>
    cases hk : lineKind (jsTrim l) with
    | thought => rw [expectedSteps_thought env l ls hk]; simpa [thoughtStepFor] using ih
    | action => exact absurd hk h1
    | actionInput => exact absurd hk h2
    | observation => rw [expectedSteps_obs env l ls hk]; exact ih
    | finalAnswer => rw [expectedSteps_fa env l ls hk]; exact ih
    | other => rw [expectedSteps_other env l ls hk]; exact ih
  | pair l l2 ls n ha hai hname hinput _ ih =>
    rw [expectedSteps_pair env l l2 ls ha hai]
    obtain ⟨ih1, ih2⟩ := ih
    constructor
    · simp [List.filter_cons, actionStepFor, obsStep, ih1]
    · simp [List.filter_cons, actionStepFor, obsStep, ih2]

/-- Pointwise structure of the expected steps: every action step holds
its dispatched tool result and is immediately followed by the matching
observation step; every observation step immediately follows an action
step sharing the same tool result. -/
theorem expectedSteps_linked (env : Env) {ls : List String} {n : Nat}
    (h : WfLines ls n) :
    ∀ i s, (expectedSteps env ls).get? i = some s →
      (s.type = StepType.action → ∃ name input,
          s.actionName = some name ∧ s.actionInput = some input ∧
          s.toolResult = some (dispatchTool env name input) ∧
          (expectedSteps env ls).get? (i + 1) =
            some (obsStep (dispatchTool env name input))) ∧
      (s.type = StepType.observation → ∃ j prev, i = j + 1 ∧
          (expectedSteps env ls).get? j = some prev ∧
          prev.type = StepType.action ∧ prev.toolResult = s.toolResult) := by
  induction h with
  | nil => intro i s hs; rw [expectedSteps_nil] at hs; simp at hs
  | skip l ls n h1 h2 _ ih =>
    have key : ∀ t : ReActStep, t.type ≠ StepType.action → t.type ≠ StepType.observation →
        ∀ i s, (t :: expectedSteps env ls).get? i = some s →
        (s.type = StepType.action → ∃ name input,
            s.actionName = some name ∧ s.actionInput = some input ∧
            s.toolResult = some (dispatchTool env name input) ∧
            (t :: expectedSteps env ls).get? (i + 1) =
              some (obsStep (dispatchTool env name input))) ∧
        (s.type = StepType.observation → ∃ j prev, i = j + 1 ∧
            (t :: expectedSteps env ls).get? j = some prev ∧
            prev.type = StepType.action ∧ prev.toolResult = s.toolResult) := by
      intro t ht1 ht2 i s hs
      match i with
      | 0 =>
        simp at hs
        subst hs
        exact ⟨fun hc => absurd hc ht1, fun hc => absurd hc ht2⟩
      | Nat.succ j =>
        simp only [List.get?] at hs
        obtain ⟨hact, hobs⟩ := ih j s hs
        constructor
        · intro hc
          obtain ⟨name, input, e1, e2, e3, e4⟩ := hact hc
          exact ⟨name, input, e1, e2, e3, by simpa using e4⟩
        · intro hc
          obtain ⟨j2, prev, e1, e2, e3, e4⟩ := hobs hc
          exact ⟨j2 + 1, prev, by omega, by simpa using e2, e3, e4⟩
    cases hk : lineKind (jsTrim l) with
    | thought =>
      rw [expectedSteps_thought env l ls hk]
      exact key (thoughtStepFor l) (by simp [thoughtStepFor]) (by simp [thoughtStepFor])
    | action => exact absurd hk h1
    | actionInput => exact absurd hk h2
    | observation => rw [expectedSteps_obs env l ls hk]; exact ih
    | finalAnswer => rw [expectedSteps_fa env l ls hk]; exact ih
    | other => rw [expectedSteps_other env l ls hk]; exact ih
  | pair l l2 ls n ha hai hname hinput _ ih =>
    rw [expectedSteps_pair env l l2 ls ha hai]
    intro i s hs
    match i with
    | 0 =>
      simp at hs
      subst hs
      constructor
      · intro _
        exact ⟨actionNameOf l, actionInputOf l2, rfl, rfl, rfl, by simp⟩
      · intro hc
        simp [actionStepFor] at hc
    | 1 =>
      simp at hs
      subst hs
      constructor
      · intro hc
        simp [obsStep] at hc
      · intro _
        exact ⟨0, actionStepFor env (actionNameOf l) (actionInputOf l2), rfl, by simp,
          rfl, rfl⟩
    | Nat.succ (Nat.succ j) =>
      simp only [List.get?] at hs
      obtain ⟨hact, hobs⟩ := ih j s hs
      constructor
      · intro hc
        obtain ⟨name, input, e1, e2, e3, e4⟩ := hact hc
        exact ⟨name, input, e1, e2, e3, by simpa using e4⟩
      · intro hc
        obtain ⟨j2, prev, e1, e2, e3, e4⟩ := hobs hc
        exact ⟨j2 + 2, prev, by omega, by simpa using e2, e3, e4⟩

/-- A non-`Final Answer:` line leaves `needsClarification` unchanged. -/
theorem stepLine_nc (env : Env) (st : ParseState) (l : String)
    (hk : lineKind (jsTrim l) ≠ LineKind.finalAnswer) :
    (stepLine env st l).needsClarification = st.needsClarification := by
  cases hk2 : lineKind (jsTrim l) with
  | thought => simp [stepLine, hk2]
  | action => simp [stepLine, hk2]
  | actionInput =>
    simp only [stepLine, hk2]
    (repeat' split) <;> rfl
  | observation => simp [stepLine, hk2]
  | finalAnswer => exact absurd hk2 hk
  | other => simp [stepLine, hk2]

/-- A `Final Answer:` line ors the heuristic into `needsClarification`. -/
theorem stepLine_nc_fa (env : Env) (st : ParseState) (l : String)
    (hk : lineKind (jsTrim l) = LineKind.finalAnswer) :
    (stepLine env st l).needsClarification =
      (st.needsClarification || clarifHeuristic (faLineContent l)) := by
  simp [stepLine, hk, faLineContent]

/-- The loop's `needsClarification` is the disjunction of the
clarification heuristic over the contents of all `Final Answer:` lines. -/
theorem runLines_nc (env : Env) (ls : List String) :
    ∀ st : ParseState, (runLines env st ls).needsClarification =
      (st.needsClarification ||
        ls.any (fun l => (lineKind (jsTrim l) == LineKind.finalAnswer)
          && clarifHeuristic (faLineContent l))) := by
  induction ls with
  | nil => intro st; simp [runLines]
  | cons l ls ih =>
    intro st
    simp only [runLines, ih]
    by_cases hk : lineKind (jsTrim l) = LineKind.finalAnswer
    · rw [stepLine_nc_fa env st l hk]
      simp [hk, Bool.or_assoc]
    · rw [stepLine_nc env st l hk]
      simp only [List.any_cons]
      have : (lineKind (jsTrim l) == LineKind.finalAnswer) = false := by
        simpa using hk
      simp [this]

/-- A non-`Final Answer:` line leaves `finalAnswer` unchanged. -/
theorem stepLine_fa_eq (env : Env) (st : ParseState) (l : String)
    (hk : lineKind (jsTrim l) ≠ LineKind.finalAnswer) :
    (stepLine env st l).finalAnswer = st.finalAnswer := by
  cases hk2 : lineKind (jsTrim l) with
  | thought => simp [stepLine, hk2]
  | action => simp [stepLine, hk2]
  | actionInput =>
    simp only [stepLine, hk2]
    (repeat' split) <;> rfl
  | observation => simp [stepLine, hk2]
  | finalAnswer => exact absurd hk2 hk
  | other => simp [stepLine, hk2]

/-- The loop's `finalAnswer` is the content of the LAST `Final Answer:`
line, when one exists. -/
theorem runLines_fa (env : Env) (ls : List String) :
    ∀ st : ParseState, (runLines env st ls).finalAnswer =
      (match ls.reverse.find? (fun l => lineKind (jsTrim l) == LineKind.finalAnswer) with
       | some l => faLineContent l
       | none => st.finalAnswer) := by
  induction ls with
  | nil => intro st; simp [runLines]
  | cons l ls ih =>
    intro st
    simp only [runLines, ih, List.reverse_cons, List.find?_append]
    cases hf : ls.reverse.find? (fun l => lineKind (jsTrim l) == LineKind.finalAnswer) with
    | some l2 => simp [Option.orElse]
    | none =>
      simp only [Option.orElse, Option.none_orElse]
      by_cases hk : lineKind (jsTrim l) = LineKind.finalAnswer
      · simp only [List.find?]
        have hb : (lineKind (jsTrim l) == LineKind.finalAnswer) = true := by simpa using hk
        rw [hb]
        simp [stepLine, hk, faLineContent]
      · simp only [List.find?]
        have hb : (lineKind (jsTrim l) == LineKind.finalAnswer) = false := by simpa using hk
        rw [hb]
        simp [stepLine_fa_eq env st l hk]

/-- The steps-and-pointer core of the loop state. -/
def stCore (st : ParseState) : List ReActStep × Option Nat :=
  (st.steps, st.current)

/-- One loop iteration reads only the core of the state to produce the
core of the next state. -/
theorem stepLine_core (env : Env) (l : String) :
    ∀ st1 st2 : ParseState, stCore st1 = stCore st2 →
      stCore (stepLine env st1 l) = stCore (stepLine env st2 l) := by
  intro st1 st2 h
  have hsteps : st1.steps = st2.steps := congrArg Prod.fst h
  have hcur : st1.current = st2.current := congrArg Prod.snd h
  cases hk2 : lineKind (jsTrim l) with
  | thought => simp [stepLine, hk2, stCore, hsteps, hcur]
  | action => simp [stepLine, hk2, stCore, hsteps, hcur]
  | actionInput =>
    simp only [stepLine, hk2]
    rw [hcur, hsteps]
    (repeat' split) <;> first | exact h | simp [stCore, hsteps, hcur]
  | observation => simpa [stepLine, hk2] using h
  | finalAnswer => simpa [stepLine, hk2] using h
  | other => simpa [stepLine, hk2] using h

/-- The loop's steps and pointer depend only on the initial core. -/
theorem runLines_core (env : Env) (ls : List String) :
    ∀ st1 st2 : ParseState, stCore st1 = stCore st2 →
      stCore (runLines env st1 ls) = stCore (runLines env st2 ls) := by
  induction ls with
  | nil => intro st1 st2 h; exact h
  | cons l ls ih =>
    intro st1 st2 h
    exact ih _ _ (stepLine_core env l st1 st2 h)

/-- `Final Answer:` lines never contribute steps: removing them from
the line list leaves the parsed step list unchanged (parsing continues
past them). -/
theorem runLines_steps_no_fa (env : Env) (ls : List String) :
    ∀ st : ParseState,
      (runLines env st
        (ls.filter (fun l => !(lineKind (jsTrim l) == LineKind.finalAnswer)))).steps =
      (runLines env st ls).steps := by
  induction ls with
  | nil => intro st; rfl
  | cons l ls ih =>
    intro st
    by_cases hk : lineKind (jsTrim l) = LineKind.finalAnswer
    · have hb : (lineKind (jsTrim l) == LineKind.finalAnswer) = true := by simpa using hk
      simp only [List.filter_cons, hb, Bool.not_true, Bool.false_eq_true, if_false, runLines]
      have hcore : stCore st = stCore (stepLine env st l) := by
        simp [stepLine, hk, stCore]
      have := runLines_core env ls st (stepLine env st l) hcore
      rw [ih st]
      exact congrArg Prod.fst this
    · have hb : (lineKind (jsTrim l) == LineKind.finalAnswer) = false := by simpa using hk
      simp only [List.filter_cons, hb, Bool.not_false, if_true, runLines]
      exact ih (stepLine env st l)

/-- The accumulation loop never pushes the running total past the
budget it starts under. -/
theorem selectRecent_sum (ls : List ConversationMessage) :
    ∀ tot : Rat, tot ≤ maxTokensEstimate →
      tot + msgTokensSum (selectRecent tot ls) ≤ maxTokensEstimate := by
  induction ls with
  | nil => intro tot h; simpa [selectRecent, msgTokensSum] using h
  | cons m ms ih =>
    intro tot h
    by_cases hover : tot + msgTokens m > maxTokensEstimate
    · simpa [selectRecent, hover, msgTokensSum] using h
    · push_neg at hover
      have := ih (tot + msgTokens m) hover
      simp only [selectRecent, msgTokensSum] at *
      rw [if_neg (by push_neg; exact hover)]
      simp only [List.map_cons, List.sum_cons]
      linarith

/-- The accumulation loop takes a prefix of its input: either all of
it, or everything strictly before the first message that would
overflow the budget. -/
theorem selectRecent_shape (ls : List ConversationMessage) :
    ∀ tot : Rat,
      selectRecent tot ls = ls ∨
      ∃ pre m post, ls = pre ++ m :: post ∧ selectRecent tot ls = pre ∧
        maxTokensEstimate < tot + msgTokensSum pre + msgTokens m := by
  induction ls with
  | nil => intro tot; left; simp [selectRecent]
  | cons m ms ih =>
    intro tot
    by_cases hover : tot + msgTokens m > maxTokensEstimate
    · right
      refine ⟨[], m, ms, rfl, ?_, ?_⟩
      · simp [selectRecent, hover]
      · simpa [msgTokensSum] using hover
    · cases ih (tot + msgTokens m) with
      | inl hall =>
        left
        simp [selectRecent, hover, hall]
      | inr hsome =>
        obtain ⟨pre, m2, post, hsplit, hsel, hbound⟩ := hsome
        right
        refine ⟨m :: pre, m2, post, by simp [hsplit], ?_, ?_⟩
        · simp [selectRecent, hover, hsel]
        · simp only [msgTokensSum, List.map_cons, List.sum_cons] at *
          linarith

/-! ## Claim theorems -/

/-- A concrete environment in which every collaborator fails, used by
the concrete witnesses below (tool results that matter there do not
consult the collaborators). -/
def sampleEnv : Env :=
  { searchOutcome := fun _ => Except.error "network unavailable"
    mapsOutcome := fun _ => Except.error "network unavailable"
    evalOutcome := fun _ => Except.error "eval unavailable"
    genObjectOutcome := fun _ => Except.error "generation unavailable"
    genTextOutcome := fun _ => Except.error "generation unavailable"
    elapsed := 0 }

/-- Appending anything to a nonempty string is nonempty. -/
theorem str_append_ne_empty (a b : String) (ha : a.data ≠ []) : a ++ b ≠ "" := by
  intro hcontra
  apply ha
  have h2 := congrArg String.data hcontra
  rw [String.data_append] at h2
  exact (List.append_eq_nil.mp h2).1

/-- The failure envelope of claim C2: a failed result carries a null
payload and a nonempty error message. -/
def failEnvelope (r : ToolResult) : Prop :=
  r.success = false → r.data = Json.null ∧ ∃ e, r.error = some e ∧ e ≠ ""

/-- A tool that succeeded satisfies the envelope vacuously. -/
theorem failEnvelope_of_success {r : ToolResult} (h : r.success = true) :
    failEnvelope r := by
  intro hc
  rw [h] at hc
  exact absurd hc (by simp)

/-- The search tool satisfies the failure envelope. -/
theorem search_envelope (env : Env) (q : String) :
    failEnvelope (ReActTools.search env q) := by
  cases hs : env.searchOutcome q with
  | ok r => exact failEnvelope_of_success (by simp [ReActTools.search, hs])
  | error e =>
    intro _
    refine ⟨by simp [ReActTools.search, hs], "Search failed: " ++ e,
      by simp [ReActTools.search, hs], str_append_ne_empty _ _ (by decide)⟩

/-- The maps tool always succeeds. -/
theorem maps_success (env : Env) (q : String) :
    (ReActTools.maps env q).success = true := by
  cases hs : env.mapsOutcome q <;> simp [ReActTools.maps, hs]

/-- Every calculator failure path goes through `calcFailure`. -/
theorem calcFailure_envelope (env : Env) (m : String) :
    failEnvelope (calcFailure env m) :=
  fun _ => ⟨rfl, "Calculation failed: " ++ m, rfl, str_append_ne_empty _ _ (by decide)⟩

/-- The calculator either succeeds or returns a `calcFailure`. -/
theorem calculator_cases (env : Env) (expr : String) :
    (ReActTools.calculator env expr).success = true ∨
    ∃ m, ReActTools.calculator env expr = calcFailure env m := by
  unfold ReActTools.calculator
  dsimp only
  repeat' split
  all_goals first
    | (left; rfl)
    | (right; exact ⟨_, rfl⟩)

/-- The calculator satisfies the failure envelope. -/
theorem calculator_envelope (env : Env) (expr : String) :
    failEnvelope (ReActTools.calculator env expr) := by
  cases calculator_cases env expr with
  | inl h => exact failEnvelope_of_success h
  | inr h => obtain ⟨m, hm⟩ := h; rw [hm]; exact calcFailure_envelope env m

/-- The market-analysis tool satisfies the failure envelope. -/
theorem marketAnalysis_envelope (env : Env) (topic : String) :
    failEnvelope (ReActTools.marketAnalysis env topic) := by
  cases ho : env.genObjectOutcome topic with
  | ok o => exact failEnvelope_of_success (by simp [ReActTools.marketAnalysis, ho])
  | error e =>
    cases ht : env.genTextOutcome topic with
    | ok t =>
      exact failEnvelope_of_success (by simp [ReActTools.marketAnalysis, ho, ht])
    | error e2 =>
      intro _
      refine ⟨by simp [ReActTools.marketAnalysis, ho, ht],
        "Market analysis failed: " ++ e,
        by simp [ReActTools.marketAnalysis, ho, ht],
        str_append_ne_empty _ _ (by decide)⟩

/-- Claim C2: for every tool of the dispatcher (the six named tools and
the unknown-tool default) and every input, a result with
`success = false` has `data = null` and a nonempty `error`. -/
theorem C2_toolFailureEnvelope (env : Env) (name input : String)
    (h : (dispatchTool env name input).success = false) :
    (dispatchTool env name input).data = Json.null ∧
    ∃ e, (dispatchTool env name input).error = some e ∧ e ≠ "" := by
  have henv : failEnvelope (dispatchTool env name input) := by
    unfold dispatchTool
    by_cases h1 : jsToLower name = "search"
    · rw [if_pos h1]; exact search_envelope env input
    · rw [if_neg h1]
      by_cases h2 : jsToLower name = "maps"
      · rw [if_pos h2]; exact failEnvelope_of_success (maps_success env input)
      · rw [if_neg h2]
        by_cases h3 : jsToLower name = "calculator"
        · rw [if_pos h3]; exact calculator_envelope env input
        · rw [if_neg h3]
          by_cases h4 : jsToLower name = "marketanalysis"
          · rw [if_pos h4]; exact marketAnalysis_envelope env input
          · rw [if_neg h4]
            by_cases h5 : jsToLower name = "propertydatabase"
            · rw [if_pos h5]; exact failEnvelope_of_success rfl
            · rw [if_neg h5]
              by_cases h6 : jsToLower name = "clarify"
              · rw [if_pos h6]; exact failEnvelope_of_success rfl
              · rw [if_neg h6]
                intro _
                refine ⟨rfl, "Unknown tool: " ++ name, rfl,
                  str_append_ne_empty _ _ (by decide)⟩
  exact henv h

/-- Witness for C2: an unknown tool name produces a failed result, and
the envelope holds for it. -/
theorem C2_witness :
    (dispatchTool sampleEnv "Teleport" "to the moon").success = false ∧
    ((dispatchTool sampleEnv "Teleport" "to the moon").data = Json.null ∧
      ∃ e, (dispatchTool sampleEnv "Teleport" "to the moon").error = some e ∧ e ≠ "") :=
  ⟨rfl, C2_toolFailureEnvelope sampleEnv "Teleport" "to the moon" rfl⟩

/-- Claim C8: the maps tool never fails — it always returns
`success = true`, and whenever the external call fails it carries the
synthesized placeholder payload instead. -/
theorem C8_mapsDegradesToMock (env : Env) (query : String) :
    (ReActTools.maps env query).success = true ∧
    (∀ e, env.mapsOutcome query = Except.error e →
      (ReActTools.maps env query).data = mapsFallback query) := by
  constructor
  · exact maps_success env query
  · intro e he
    simp [ReActTools.maps, he]

/-- Witness for C8: a failing maps collaborator still yields a
successful result carrying the fallback payload. -/
theorem C8_witness :
    sampleEnv.mapsOutcome "cafes in Thamel" = Except.error "network unavailable" ∧
    (ReActTools.maps sampleEnv "cafes in Thamel").success = true ∧
    (ReActTools.maps sampleEnv "cafes in Thamel").data = mapsFallback "cafes in Thamel" :=
  ⟨rfl, (C8_mapsDegradesToMock sampleEnv "cafes in Thamel").1,
    (C8_mapsDegradesToMock sampleEnv "cafes in Thamel").2 "network unavailable" rfl⟩

/-- Claim C10: dispatching an unrecognized tool name (case-insensitive)
does not throw: it produces the fixed failed result with the
`Unknown tool: ` message and zero execution time, and the observation
step recording that failure is still appended. -/
theorem C10_unknownToolDispatch (env : Env) (s : ReActStep) (name input : String)
    (h1 : jsToLower name ∉
      (["search", "maps", "calculator", "marketanalysis", "propertydatabase", "clarify"] : List String))
    (h2 : name ≠ "") (h3 : input ≠ "")
    (h4 : s.actionName = some name) (h5 : s.actionInput = some input) :
    dispatchTool env name input =
      { success := false, data := Json.null,
        error := some ("Unknown tool: " ++ name), executionTime := some 0 } ∧
    executeToolAsync env s =
      ({ s with toolResult := some (dispatchTool env name input) },
        some (obsStep (dispatchTool env name input))) ∧
    (obsStep (dispatchTool env name input)).type = StepType.observation ∧
    (obsStep (dispatchTool env name input)).toolResult = some (dispatchTool env name input) := by
  simp only [List.mem_cons, List.not_mem_nil, or_false, not_or] at h1
  obtain ⟨n1, n2, n3, n4, n5, n6⟩ := h1
  refine ⟨?_, ?_, rfl, rfl⟩
  · unfold dispatchTool
    rw [if_neg n1, if_neg n2, if_neg n3, if_neg n4, if_neg n5, if_neg n6]
    rfl
  · simp [executeToolAsync, h4, h5, h2, h3]

/-- Witness for C10: the tool name `FooBar` is dispatched to the
default branch. -/
theorem C10_witness :
    jsToLower "FooBar" ∉
      (["search", "maps", "calculator", "marketanalysis", "propertydatabase", "clarify"] : List String) ∧
    dispatchTool sampleEnv "FooBar" "x" =
      { success := false, data := Json.null,
        error := some ("Unknown tool: " ++ "FooBar"), executionTime := some 0 } :=
  ⟨by decide,
    (C10_unknownToolDispatch sampleEnv
      { type := StepType.action, content := "Action: FooBar",
        actionName := some "FooBar", actionInput := some "x" }
      "FooBar" "x" (by decide) (by decide) (by decide) rfl rfl).1⟩

/-- Claim C5: the ROI scenario input evaluates to exactly 20 and lands
in the `> 15` band, not the `> 20` band (strict inequalities checked
top-down). -/
theorem C5_roiScenario (env : Env) :
    (ReActTools.calculator env "ROI of gain 1200000 cost 1000000").success = true ∧
    dataField (ReActTools.calculator env "ROI of gain 1200000 cost 1000000").data "result" =
      some (Json.num 20) ∧
    dataField (ReActTools.calculator env "ROI of gain 1200000 cost 1000000").data "interpretation" =
      some (Json.str "Good ROI - Solid investment opportunity") ∧
    dataField (ReActTools.calculator env "ROI of gain 1200000 cost 1000000").data "calculation_type" =
      some (Json.str "roi") ∧
    interpretCalculationResult 20 "roi" = "Good ROI - Solid investment opportunity" := by
  have hgain : parseNumLit "1200000".data = 1200000 := by
    have h0 : parseNumLit "1200000".data =
        ((1200000 : Nat) : Rat) + ((0 : Nat) : Rat) / (10 : Rat) ^ (0 : Nat) := rfl
    rw [h0]; norm_num
  have hcost : parseNumLit "1000000".data = 1000000 := by
    have h0 : parseNumLit "1000000".data =
        ((1000000 : Nat) : Rat) + ((0 : Nat) : Rat) / (10 : Rat) ^ (0 : Nat) := rfl
    rw [h0]; norm_num
  have hinterp : interpretCalculationResult 20 "roi" =
      "Good ROI - Solid investment opportunity" := by
    unfold interpretCalculationResult
    rw [if_pos rfl, if_neg (by norm_num), if_pos (by norm_num)]
  have hcalc : ReActTools.calculator env "ROI of gain 1200000 cost 1000000" =
      { success := true
        data := calcData "ROI of gain 1200000 cost 1000000" 20 "roi"
        executionTime := some env.elapsed } := by
    have hb : (jsIncludes (jsToLower "ROI of gain 1200000 cost 1000000") "roi"
        || jsIncludes (jsToLower "ROI of gain 1200000 cost 1000000") "return on investment") = true := rfl
    have hlits : numLits "ROI of gain 1200000 cost 1000000".data =
        ["1200000".data, "1000000".data] := rfl
    unfold ReActTools.calculator
    dsimp only
    rw [if_pos hb, hlits]
    dsimp only
    rw [hgain, hcost]
    rw [if_neg (by norm_num)]
    have hval : ((1200000 : Rat) - 1000000) / 1000000 * 100 = 20 := by norm_num
    rw [hval]
  rw [hcalc]
  refine ⟨rfl, rfl, ?_, rfl, hinterp⟩
  have : dataField (calcData "ROI of gain 1200000 cost 1000000" 20 "roi") "interpretation" =
      some (Json.str (interpretCalculationResult 20 "roi")) := rfl
  rw [this, hinterp]

/-- The scenario query of claim C4. -/
def c4Query : String := "Find me a 2BHK apartment in Kathmandu under NPR 30,000"

/-- Counterexample to C4 as stated: the query parser extracts NO price
bound from "under NPR 30,000" (the price regex requires the currency
word AFTER the amount, and the budget regex requires the word
"budget"), so the claimed criteria `maxPrice = 30000` is not produced. -/
theorem C4_counterexample :
    (parsePropertyQuery c4Query).maxPrice = none ∧
    (parsePropertyQuery c4Query).minPrice = none :=
  ⟨rfl, rfl⟩

/-- Amended C4: the parser produces `bedrooms = 2`,
`location = "Kathmandu"`, `propertyType = "apartment"` and no price
criteria; the tool returns exactly the corpus entries passing those
three filters sorted by `match_score` descending — here the empty
list, since no 2-bedroom apartment of the corpus lies in Kathmandu. -/
theorem C4_amended (env : Env) :
    parsePropertyQuery c4Query =
      { minPrice := none, maxPrice := none, bedrooms := some 2,
        location := some "Kathmandu", propertyType := some "apartment",
        priceType := none } ∧
    mockProperties.filter (passesFilter (parsePropertyQuery c4Query)) = [] ∧
    (ReActTools.propertyDatabase env c4Query).success = true ∧
    dataField (ReActTools.propertyDatabase env c4Query).data "properties" =
      some (Json.arr ((sortByScoreDesc
        (mockProperties.filter (passesFilter (parsePropertyQuery c4Query)))).take 10 |>.map propToJson)) ∧
    dataField (ReActTools.propertyDatabase env c4Query).data "properties" =
      some (Json.arr []) ∧
    dataField (ReActTools.propertyDatabase env c4Query).data "total_found" =
      some (Json.num ((0 : Nat) : Rat)) :=
  ⟨rfl, rfl, rfl, rfl, rfl, rfl⟩

/-- Claim C9: in the extended-patterns revision of the preference
extraction, a matched budget amount updates the stored price-range
maximum only when it exceeds 1000; a matched amount of at most 1000 —
and a message with no match — leaves the stored range unchanged. -/
theorem C9_budgetThreshold (current : Option PriceRange) (msg : String) :
    (∀ a, budgetAmountOf msg = some a → 1000 < a →
      newPriceRange current msg = some ⟨(current.map PriceRange.min).getD 0, a⟩) ∧
    (∀ a, budgetAmountOf msg = some a → a ≤ 1000 →
      newPriceRange current msg = current) ∧
    (budgetAmountOf msg = none → newPriceRange current msg = current) := by
  refine ⟨?_, ?_, ?_⟩
  · intro a ha hgt
    unfold newPriceRange
    rw [ha]
    dsimp only
    rw [if_pos hgt]
  · intro a ha hle
    unfold newPriceRange
    rw [ha]
    dsimp only
    rw [if_neg (by omega)]
  · intro hn
    unfold newPriceRange
    rw [hn]

/-- Witness for C9: "budget 500" matches with amount 500, which is
discarded; "budget 30000" matches with amount 30000, which overwrites
the stored maximum. -/
theorem C9_witness :
    budgetAmountOf "I have a budget 500" = some 500 ∧
    newPriceRange (some ⟨5000, 20000⟩) "I have a budget 500" = some ⟨5000, 20000⟩ ∧
    budgetAmountOf "I have a budget 30000" = some 30000 ∧
    newPriceRange (some ⟨5000, 20000⟩) "I have a budget 30000" = some ⟨5000, 30000⟩ :=
  ⟨rfl,
    (C9_budgetThreshold (some ⟨5000, 20000⟩) "I have a budget 500").2.1 500 rfl (by omega),
    rfl,
    (C9_budgetThreshold (some ⟨5000, 20000⟩) "I have a budget 30000").1 30000 rfl (by omega)⟩

/-- The clarification heuristic over a whole line list: some
`Final Answer:` line whose content passes the heuristic. -/
def anyClarifyingFALine (ls : List String) : Bool :=
  ls.any (fun l => (lineKind (jsTrim l) == LineKind.finalAnswer)
    && clarifHeuristic (faLineContent l))

/-- Amended C3: `needsClarification` is true exactly when some parsed
`Final Answer:` LINE passes the question-mark-plus-phrase heuristic; a
final answer recovered only through the trailing-regex fallback never
sets it. -/
theorem C3_clarificationHeuristic (env : Env) (completion : String) :
    (parseReActResponse env completion).needsClarification =
      anyClarifyingFALine (linesOf completion) := by
  simp only [parseReActResponse, anyClarifyingFALine]
  rw [runLines_nc]
  simp

/-- Counterexample to C3 as stated: a completion whose final answer is
recovered by the fallback regex (the lowercase label does not match the
case-sensitive line scan), contains a question mark and the phrase
"could you", yet `needsClarification` stays false. -/
theorem C3_counterexample :
    (parseReActResponse sampleEnv "final answer: Could you share more details?").finalAnswer =
      "Could you share more details?" ∧
    clarifHeuristic
      (parseReActResponse sampleEnv "final answer: Could you share more details?").finalAnswer = true ∧
    (parseReActResponse sampleEnv "final answer: Could you share more details?").needsClarification =
      false :=
  ⟨rfl, rfl, rfl⟩

/-- The final answer the parser should produce: the content of the last
`Final Answer:` line; failing that, the trimmed capture of the fallback
regex; failing that, the canned string. -/
def faSpec (response : String) : String :=
  let fa :=
    match (linesOf response).reverse.find?
        (fun l => lineKind (jsTrim l) == LineKind.finalAnswer) with
    | some l => faLineContent l
    | none => ""
  let fa1 :=
    if fa = "" then
      match finalAnswerFallback response with
      | some g => jsTrim g
      | none => ""
    else fa
  if fa1 = "" then cannedFinalAnswer else fa1

/-- Amended C7: a `Final Answer:` line does NOT terminate parsing — the
LAST such line determines `finalAnswer` (falling back to the regex scan
and then the canned string, so the answer is never empty), while lines
after a `Final Answer:` line still contribute steps and dispatch tools
(removing the `Final Answer:` lines leaves the step list unchanged). -/
theorem C7_finalAnswerResolution (env : Env) (completion : String) :
    (parseReActResponse env completion).finalAnswer = faSpec completion ∧
    (parseReActResponse env completion).finalAnswer ≠ "" ∧
    (∀ st ls, (runLines env st
        (ls.filter (fun l => !(lineKind (jsTrim l) == LineKind.finalAnswer)))).steps =
      (runLines env st ls).steps) := by
  have hchar : (parseReActResponse env completion).finalAnswer = faSpec completion := by
    simp only [parseReActResponse, faSpec]
    rw [runLines_fa]
  refine ⟨hchar, ?_, fun st ls => runLines_steps_no_fa env ls st⟩
  rw [hchar]
  have hcanned : ∀ s : String, (if s = "" then cannedFinalAnswer else s) ≠ "" := by
    intro s
    by_cases h : s = ""
    · rw [if_pos h]
      intro hc
      exact absurd (congrArg String.data hc) (by decide)
    · rw [if_neg h]
      exact h
  unfold faSpec
  dsimp only
  exact hcanned _

/-- Witness for C7 at a concrete completion: the characterization and
nonemptiness hold for a completion with two `Final Answer:` lines. -/
theorem C7_witness :
    (parseReActResponse sampleEnv "Final Answer: A\nThought: t\nFinal Answer: B").finalAnswer =
      faSpec "Final Answer: A\nThought: t\nFinal Answer: B" ∧
    (parseReActResponse sampleEnv "Final Answer: A\nThought: t\nFinal Answer: B").finalAnswer ≠ "" :=
  ⟨(C7_finalAnswerResolution sampleEnv "Final Answer: A\nThought: t\nFinal Answer: B").1,
    (C7_finalAnswerResolution sampleEnv "Final Answer: A\nThought: t\nFinal Answer: B").2.1⟩

/-- Counterexample to C7 as stated: after the first `Final Answer:`
line, parsing continues — a later `Thought:` line still contributes a
step and a later `Final Answer:` line overwrites the answer. -/
theorem C7_counterexample :
    (parseReActResponse sampleEnv "Final Answer: A\nThought: t\nFinal Answer: B").finalAnswer = "B" ∧
    (parseReActResponse sampleEnv "Final Answer: A\nThought: t\nFinal Answer: B").steps =
      [{ type := StepType.thought, content := "t" }] :=
  ⟨rfl, rfl⟩

/-- Claim C1: on a completion whose lines contain exactly `N`
well-formed `Action`/`Action Input` pairs, the parsed step list is the
expected one: it holds exactly `N` action steps and `N` observation
steps, each action step carries the result of synchronously dispatching
its named tool on its input and is immediately followed by the
observation step holding that same real result, and every observation
step arises this way (model-emitted `Observation:` lines contribute
nothing), so observation order equals execution order. -/
theorem C1_actionObservationPairing (env : Env) (completion : String) (N : Nat)
    (h : WfLines (linesOf completion) N) :
    (parseReActResponse env completion).steps = expectedSteps env (linesOf completion) ∧
    ((parseReActResponse env completion).steps.filter
        (fun s => s.type == StepType.action)).length = N ∧
    ((parseReActResponse env completion).steps.filter
        (fun s => s.type == StepType.observation)).length = N ∧
    (∀ i s, (parseReActResponse env completion).steps.get? i = some s →
      (s.type = StepType.action → ∃ name input,
        s.actionName = some name ∧ s.actionInput = some input ∧
        s.toolResult = some (dispatchTool env name input) ∧
        (parseReActResponse env completion).steps.get? (i + 1) =
          some (obsStep (dispatchTool env name input))) ∧
      (s.type = StepType.observation → ∃ j prev, i = j + 1 ∧
        (parseReActResponse env completion).steps.get? j = some prev ∧
        prev.type = StepType.action ∧ prev.toolResult = s.toolResult)) := by
  have hsteps : (parseReActResponse env completion).steps =
      expectedSteps env (linesOf completion) := by
    simp only [parseReActResponse]
    rw [runLines_wf_steps env h]
    simp
  refine ⟨hsteps, ?_, ?_, ?_⟩
  · rw [hsteps]; exact (expectedSteps_counts env h).1
  · rw [hsteps]; exact (expectedSteps_counts env h).2
  · rw [hsteps]; exact expectedSteps_linked env h

/-- The concrete completion of the C1 witness: one thought, one
well-formed pair (with a model-emitted observation to be discarded),
and a final answer. -/
def c1WitnessCompletion : String :=
  "Thought: Need info\nAction: Clarify\nAction Input: Which area?\nObservation: guessed\nFinal Answer: done"

/-- Witness for C1: the witness completion holds exactly one
well-formed pair and parses to exactly one action step and one
observation step. -/
theorem C1_witness :
    WfLines (linesOf c1WitnessCompletion) 1 ∧
    ((parseReActResponse sampleEnv c1WitnessCompletion).steps.filter
        (fun s => s.type == StepType.action)).length = 1 ∧
    ((parseReActResponse sampleEnv c1WitnessCompletion).steps.filter
        (fun s => s.type == StepType.observation)).length = 1 := by
  have hl : linesOf c1WitnessCompletion =
      ["Thought: Need info", "Action: Clarify", "Action Input: Which area?",
       "Observation: guessed", "Final Answer: done"] := rfl
  have hwf : WfLines (linesOf c1WitnessCompletion) 1 := by
    rw [hl]
    exact .skip _ _ _ (by decide) (by decide)
      (.pair _ _ _ _ (by decide) (by decide) (by decide) (by decide)
        (.skip _ _ _ (by decide) (by decide)
          (.skip _ _ _ (by decide) (by decide) .nil)))
  exact ⟨hwf, (C1_actionObservationPairing sampleEnv c1WitnessCompletion 1 hwf).2.1,
    (C1_actionObservationPairing sampleEnv c1WitnessCompletion 1 hwf).2.2.1⟩

/-- Token sums distribute over append. -/
theorem msgTokensSum_append (a b : List ConversationMessage) :
    msgTokensSum (a ++ b) = msgTokensSum a + msgTokensSum b := by
  simp [msgTokensSum]

/-- Token sums are invariant under reversal. -/
theorem msgTokensSum_reverse (a : List ConversationMessage) :
    msgTokensSum a.reverse = msgTokensSum a := by
  simp [msgTokensSum, List.sum_reverse]

/-- Token sum of a cons cell. -/
theorem msgTokensSum_cons (m : ConversationMessage) (l : List ConversationMessage) :
    msgTokensSum (m :: l) = msgTokens m + msgTokensSum l := by
  simp [msgTokensSum]

/-- Amended C6: the context returned for a session always contains
every system message; its estimated token sum stays within the 8000
budget PROVIDED the system messages alone fit it (they are included
regardless, so they alone can exceed it); and the non-system part is a
suffix of the non-system messages in order (newest-first selection,
returned oldest-first), maximal for the budget. -/
theorem C6_contextBudget (msgs : List ConversationMessage) :
    (∀ m ∈ msgs, m.role = Role.system →
      m ∈ getConversationContext (some
        { id := "s", userId := "u", title := "t", messages := msgs,
          lastActivity := 0, createdAt := 0, updatedAt := 0 })) ∧
    (msgTokensSum (msgs.filter (fun m => m.role == Role.system)) ≤ maxTokensEstimate →
      msgTokensSum (getConversationContext (some
        { id := "s", userId := "u", title := "t", messages := msgs,
          lastActivity := 0, createdAt := 0, updatedAt := 0 })) ≤ maxTokensEstimate) ∧
    (∃ k, k ≤ (msgs.filter (fun m => m.role != Role.system)).length ∧
      getConversationContext (some
        { id := "s", userId := "u", title := "t", messages := msgs,
          lastActivity := 0, createdAt := 0, updatedAt := 0 }) =
        (msgs.filter (fun m => m.role != Role.system)).drop k ++
          msgs.filter (fun m => m.role == Role.system) ∧
      (0 < k → maxTokensEstimate <
        msgTokensSum (msgs.filter (fun m => m.role == Role.system)) +
        msgTokensSum ((msgs.filter (fun m => m.role != Role.system)).drop (k - 1)))) := by
  have hctx : getConversationContext (some
      { id := "s", userId := "u", title := "t", messages := msgs,
        lastActivity := 0, createdAt := 0, updatedAt := 0 }) =
      (selectRecent (msgTokensSum (msgs.filter (fun m => m.role == Role.system)))
        ((msgs.filter (fun m => m.role != Role.system)).reverse)).reverse ++
        msgs.filter (fun m => m.role == Role.system) := rfl
  set sys := msgs.filter (fun m => m.role == Role.system) with hsys
  set others := msgs.filter (fun m => m.role != Role.system) with hothers
  refine ⟨?_, ?_, ?_⟩
  · intro m hm hrole
    rw [hctx]
    apply List.mem_append.mpr
    right
    rw [hsys]
    exact List.mem_filter.mpr ⟨hm, by simp [hrole]⟩
  · intro hbudget
    rw [hctx, msgTokensSum_append, msgTokensSum_reverse]
    have := selectRecent_sum others.reverse (msgTokensSum sys) hbudget
    linarith
  · cases selectRecent_shape others.reverse (msgTokensSum sys) with
    | inl hall =>
      refine ⟨0, Nat.zero_le _, ?_, by omega⟩
      rw [hctx, hall, List.reverse_reverse, List.drop_zero]
    | inr hsome =>
      obtain ⟨pre, m, post, hsplit, hsel, hbound⟩ := hsome
      have h1 : others = post.reverse ++ ([m] ++ pre.reverse) := by
        have h0 : others = (pre ++ m :: post).reverse := by
          rw [← hsplit, List.reverse_reverse]
        rw [h0, List.reverse_append, List.reverse_cons, List.append_assoc]
      refine ⟨post.length + 1, ?_, ?_, ?_⟩
      · rw [h1]; simp
      · rw [hctx, hsel]
        have h2 : others.drop (post.length + 1) = pre.reverse := by
          have h3 : others = (post.reverse ++ [m]) ++ pre.reverse := by
            rw [h1, List.append_assoc]
          have h4 : (post.reverse ++ [m]).length = post.length + 1 := by simp
          rw [h3, ← h4, List.drop_left]
        rw [h2]
      · intro _
        have h2 : others.drop (post.length + 1 - 1) = m :: pre.reverse := by
          have h4 : post.reverse.length = post.length := by simp
          have h5 : others.drop post.reverse.length = [m] ++ pre.reverse := by
            rw [h1, List.drop_left]
          simpa [h4] using h5
        rw [h2, msgTokensSum_cons, msgTokensSum_reverse]
        linarith

/-- The two messages and session of the C6 witness. -/
def sysMsgW : ConversationMessage :=
  { id := "a", role := Role.system, content := "You are a helpful assistant.", timestamp := 0 }

/-- The user message of the C6 witness. -/
def userMsgW : ConversationMessage :=
  { id := "b", role := Role.user, content := "Hi", timestamp := 1 }

/-- The message list of the C6 witness. -/
def msgsW : List ConversationMessage := [sysMsgW, userMsgW]

/-- Witness for C6: a small session whose system message fits the
budget; the returned context stays within the budget. -/
theorem C6_witness :
    msgTokensSum (msgsW.filter (fun m => m.role == Role.system)) ≤ maxTokensEstimate ∧
    msgTokensSum (getConversationContext (some
      { id := "s", userId := "u", title := "t", messages := msgsW,
        lastActivity := 0, createdAt := 0, updatedAt := 0 })) ≤ maxTokensEstimate := by
  have hle : msgTokensSum (msgsW.filter (fun m => m.role == Role.system)) ≤
      maxTokensEstimate := by
    have hs : msgTokensSum (msgsW.filter (fun m => m.role == Role.system)) =
        ((28 : Nat) : Rat) / 4 + 0 := rfl
    have hmax : maxTokensEstimate = 8000 := rfl
    rw [hs, hmax]
    norm_num
  exact ⟨hle, (C6_contextBudget msgsW).2.1 hle⟩

/-- The oversized system message of the C6 counterexample: 32004
characters estimate to 8001 tokens. -/
def bigSystemMessage : ConversationMessage :=
  { id := "sys", role := Role.system,
    content := String.mk (List.replicate 32004 'a'), timestamp := 0 }

/-- Counterexample to C6 as stated: with a system message alone
estimated above the budget, the returned context (which must include
every system message) exceeds the 8000-token budget. -/
theorem C6_counterexample :
    maxTokensEstimate <
      msgTokensSum (optimizeMessagesForContext [bigSystemMessage]) := by
  have h1 : optimizeMessagesForContext [bigSystemMessage] = [bigSystemMessage] := by
    have hf1 : ([bigSystemMessage] :
        List ConversationMessage).filter (fun m => m.role == Role.system) =
        [bigSystemMessage] := rfl
    have hf2 : ([bigSystemMessage] :
        List ConversationMessage).filter (fun m => m.role != Role.system) =
        [] := rfl
    simp only [optimizeMessagesForContext, hf1, hf2, List.reverse_nil, selectRecent]
    rfl
  rw [h1]
  have h2 : (bigSystemMessage.content.length : Rat) = ((32004 : Nat) : Rat) := by
    have : bigSystemMessage.content.length = 32004 := by
      show (String.mk (List.replicate 32004 'a')).length = 32004
      rw [String.length_mk, List.length_replicate]
    rw [this]
  have h3 : msgTokensSum [bigSystemMessage] = ((32004 : Nat) : Rat) / 4 := by
    simp [msgTokensSum, msgTokens, h2]
  rw [h3, maxTokensEstimate]
  norm_num
